import Mathlib

/-!
Verification of the caselaw-factcheck analysis pipeline.

This file gives a shallow embedding of the core scoring pipeline of the
repository (cross-reference graph construction, conflict detection, the
logical-consistency and temporal-consistency rule batteries, and final score
aggregation) and proves the specified properties about it.

Python dictionaries (the articles mapping, networkx node/edge attribute
dictionaries) are modelled as insertion-ordered association lists with unique
keys, updated in place.  Machine integers are modelled as `Int`.  Python's
substring test `needle in haystack` is modelled on the underlying character
lists.
-/

set_option maxHeartbeats 1600000

namespace CaselawFactcheck

/-! ## Association lists (Python dict / networkx attribute dictionaries) -/

/-- Key list of an association list. -/
def keysOf {α β : Type} (l : List (α × β)) : List α := l.map Prod.fst

/-- Lookup of a key, returning the value at its first (with unique keys: only)
occurrence, like Python `d.get(k)`. -/
def lookupKey {α β : Type} [DecidableEq α] : List (α × β) → α → Option β
  | [], _ => none
  | (k, v) :: t, k' => if k = k' then some v else lookupKey t k'

/-- Update-or-append, like Python `d[k] = ...` on an insertion-ordered dict:
if the key is present its value is rewritten in place (`f` applied to the old
value), otherwise the pair `(k, d)` is appended at the end. -/
def upsert {α β : Type} [DecidableEq α] (k : α) (f : β → β) (d : β)
    (l : List (α × β)) : List (α × β) :=
  match l with
  | [] => [(k, d)]
  | (k', v) :: t => if k' = k then (k', f v) :: t else (k', v) :: upsert k f d t

theorem lookupKey_eq_none {α β : Type} [DecidableEq α] (l : List (α × β)) (k : α) :
    lookupKey l k = none ↔ k ∉ keysOf l := by
  induction l with
  | nil => simp [lookupKey, keysOf]
  | cons p t ih =>
    obtain ⟨k', v⟩ := p
    by_cases h : k' = k
    · subst h
      simp [lookupKey, keysOf]
    · simp [lookupKey, keysOf, h, Ne.symm h] at ih ⊢
      exact ih

theorem lookupKey_isSome {α β : Type} [DecidableEq α] (l : List (α × β)) (k : α) :
    (lookupKey l k).isSome = true ↔ k ∈ keysOf l := by
  rcases h : lookupKey l k with _ | v
  · simp [(lookupKey_eq_none l k).mp h]
  · simp only [Option.isSome_some, true_iff]
    by_contra hk
    rw [(lookupKey_eq_none l k).mpr hk] at h
    exact Option.noConfusion h

theorem lookupKey_upsert_self {α β : Type} [DecidableEq α]
    (l : List (α × β)) (k : α) (f : β → β) (d : β) :
    lookupKey (upsert k f d l) k =
      some (match lookupKey l k with | some v => f v | none => d) := by
  induction l with
  | nil => simp [upsert, lookupKey]
  | cons p t ih =>
    obtain ⟨k', v⟩ := p
    by_cases h : k' = k
    · subst h
      simp [upsert, lookupKey]
    · simp [upsert, lookupKey, h, ih]

theorem lookupKey_upsert_ne {α β : Type} [DecidableEq α]
    (l : List (α × β)) (k k' : α) (f : β → β) (d : β) (hne : k' ≠ k) :
    lookupKey (upsert k f d l) k' = lookupKey l k' := by
  induction l with
  | nil => simp [upsert, lookupKey, Ne.symm hne]
  | cons p t ih =>
    obtain ⟨k0, v⟩ := p
    by_cases h : k0 = k
    · subst h
      simp [upsert, lookupKey, Ne.symm hne]
    · by_cases h' : k0 = k'
      · subst h'
        simp [upsert, lookupKey, h]
      · simp [upsert, lookupKey, h, h', ih]

theorem keysOf_upsert_mem {α β : Type} [DecidableEq α]
    (l : List (α × β)) (k : α) (f : β → β) (d : β) (h : k ∈ keysOf l) :
    keysOf (upsert k f d l) = keysOf l := by
  induction l with
  | nil => simp [keysOf] at h
  | cons p t ih =>
    obtain ⟨k', v⟩ := p
    by_cases hk : k' = k
    · subst hk
      simp [upsert, keysOf]
    · have hmt : k ∈ keysOf t := by
        rcases List.mem_cons.mp h with h' | h'
        · exact absurd h'.symm hk
        · exact h'
      simp only [upsert, if_neg hk, keysOf, List.map_cons]
      rw [show List.map Prod.fst (upsert k f d t) = keysOf (upsert k f d t) from rfl,
        ih hmt]
      rfl

theorem keysOf_upsert_not_mem {α β : Type} [DecidableEq α]
    (l : List (α × β)) (k : α) (f : β → β) (d : β) (h : k ∉ keysOf l) :
    keysOf (upsert k f d l) = keysOf l ++ [k] := by
  induction l with
  | nil => simp [upsert, keysOf]
  | cons p t ih =>
    obtain ⟨k', v⟩ := p
    by_cases hk : k' = k
    · exact absurd (by simp [keysOf, hk]) h
    · have hmt : k ∉ keysOf t := fun hm => h (by simp [keysOf] at hm ⊢; exact Or.inr hm)
      simp only [upsert, if_neg hk, keysOf, List.map_cons]
      rw [show List.map Prod.fst (upsert k f d t) = keysOf (upsert k f d t) from rfl,
        ih hmt]
      rfl

theorem keysOf_upsert_nodup {α β : Type} [DecidableEq α]
    (l : List (α × β)) (k : α) (f : β → β) (d : β) (h : (keysOf l).Nodup) :
    (keysOf (upsert k f d l)).Nodup := by
  by_cases hm : k ∈ keysOf l
  · rw [keysOf_upsert_mem l k f d hm]
    exact h
  · rw [keysOf_upsert_not_mem l k f d hm]
    simpa [List.nodup_append] using ⟨h, hm⟩

theorem keysOf_cons {α β : Type} (p : α × β) (t : List (α × β)) :
    keysOf (p :: t) = p.1 :: keysOf t := rfl

theorem mem_keysOf_upsert {α β : Type} [DecidableEq α]
    (l : List (α × β)) (k k' : α) (f : β → β) (d : β) :
    k' ∈ keysOf (upsert k f d l) ↔ k' = k ∨ k' ∈ keysOf l := by
  by_cases hm : k ∈ keysOf l
  · rw [keysOf_upsert_mem l k f d hm]
    exact ⟨Or.inr, fun h => h.elim (fun he => he ▸ hm) id⟩
  · rw [keysOf_upsert_not_mem l k f d hm]
    rw [List.mem_append, List.mem_singleton]
    exact Or.comm

theorem assoc_ext {α β : Type} [DecidableEq α] (l₁ : List (α × β)) :
    ∀ l₂ : List (α × β), (keysOf l₁).Nodup → keysOf l₁ = keysOf l₂ →
      (∀ k, lookupKey l₁ k = lookupKey l₂ k) → l₁ = l₂ := by
  induction l₁ with
  | nil =>
    intro l₂ _ hk _
    cases l₂ with
    | nil => rfl
    | cons p t => simp [keysOf] at hk
  | cons p t ih =>
    intro l₂ hnd hk hl
    obtain ⟨k, v⟩ := p
    cases l₂ with
    | nil => simp [keysOf] at hk
    | cons p₂ t₂ =>
      obtain ⟨k₂, v₂⟩ := p₂
      simp only [keysOf, List.map_cons, List.cons.injEq] at hk
      obtain ⟨hkk, hkt⟩ := hk
      subst hkk
      have hv : v = v₂ := by
        have := hl k
        simpa [lookupKey] using this
      subst hv
      simp only [keysOf, List.map_cons, List.nodup_cons] at hnd
      obtain ⟨hknot, hndt⟩ := hnd
      have ht : t = t₂ := by
        refine ih t₂ hndt hkt (fun k' => ?_)
        by_cases h : k = k'
        · subst h
          have h1 : lookupKey t k = none := (lookupKey_eq_none t k).mpr hknot
          have h2 : lookupKey t₂ k = none := by
            refine (lookupKey_eq_none t₂ k).mpr ?_
            simp only [keysOf]
            rw [← hkt]
            exact hknot
          rw [h1, h2]
        · have := hl k'
          simpa [lookupKey, h] using this
      rw [ht]

/-! ## Python substring test -/

/-- Auxiliary:  is `needle` an infix of the character list? -/
def isSubAux (needle : List Char) : List Char → Bool
  | [] => needle.isEmpty
  | c :: t => needle.isPrefixOf (c :: t) || isSubAux needle t

/-- Python substring containment `needle in haystack`. -/
def strContains (haystack needle : String) : Bool :=
  isSubAux needle.data haystack.data

/-! ## Data model

A `LegalArticle` record (legal_parser.py) as consumed by the core pipeline:
only the fields the analyzers read are modelled (`article_no`, `url` and `law`
are carried but never read by the scoring core). -/

structure Article where
  title : String
  text : String
  key_terms : List String
  constraints : List String
  references_to : List String
  critical_phrases : List String
deriving DecidableEq

/-- Articles mapping `Dict[str, LegalArticle]`: insertion-ordered dict. -/
abbrev Articles := List (String × Article)

/-! ## networkx DiGraph model (cross_reference_analyzer.py)

`nx.DiGraph` is a simple directed graph: its adjacency structure is a dict of
dicts keyed by node and by (source, target), so there is at most one edge per
ordered pair, and re-adding an edge updates the existing attribute dictionary
in place.  Nodes and edges are modelled as insertion-ordered association
lists keyed by node id and by the ordered pair.  All `add_edge` call sites in
the source guard both endpoints (`ref in self.articles`, `'103' in
self.graph`, ...), so networkx's auto-insertion of missing endpoint nodes
never fires and is not modelled. -/

structure NodeData where
  title : String
  has_constraints : Bool
  key_terms : List String
deriving DecidableEq

/-- Edge attribute dictionary.  `references` edges are created without a
`critical` key; the source only ever reads it via `d.get('critical', False)`,
so a missing key is modelled as `critical := false`. -/
structure EdgeData where
  relationship : String
  critical : Bool
deriving DecidableEq

structure Graph where
  nodes : List (String × NodeData)
  edges : List ((String × String) × EdgeData)
deriving DecidableEq

def Graph.empty : Graph := ⟨[], []⟩

theorem Graph.ext' (g₁ g₂ : Graph) (hn : g₁.nodes = g₂.nodes)
    (he : g₁.edges = g₂.edges) : g₁ = g₂ := by
  cases g₁
  cases g₂
  cases hn
  cases he
  rfl

/-- Membership test `n in self.graph`. -/
def Graph.hasNode (g : Graph) (k : String) : Bool := (lookupKey g.nodes k).isSome

/-- `self.graph.add_node(article_no, title=..., has_constraints=..., key_terms=...)`:
sets all three node attributes (update in place if the node exists). -/
def Graph.addNode (g : Graph) (k : String) (d : NodeData) : Graph :=
  { g with nodes := upsert k (fun _ => d) d g.nodes }

/-- `self.graph.add_edge(u, v, relationship='references')`: on an existing
edge only the `relationship` attribute is rewritten (any `critical` attribute
is left as it was); a fresh edge has no `critical` key. -/
def Graph.addRefEdge (g : Graph) (u v : String) : Graph :=
  { g with
    edges := upsert (u, v) (fun e => { e with relationship := "references" })
      ⟨"references", false⟩ g.edges }

/-- `self.graph.add_edge(u, v, relationship=rel, critical=True)`: sets both
attributes whether or not the edge already exists. -/
def Graph.addInterpEdge (g : Graph) (u v rel : String) : Graph :=
  { g with edges := upsert (u, v) (fun _ => ⟨rel, true⟩) ⟨rel, true⟩ g.edges }

/-- Node attribute snapshot taken by `build_graph`
(`has_constraints=bool(article.constraints)`). -/
def nodeData (a : Article) : NodeData := ⟨a.title, !a.constraints.isEmpty, a.key_terms⟩

/-- First loop of `CrossReferenceAnalyzer.build_graph`: one node per article. -/
def build_nodes (arts : Articles) (g : Graph) : Graph :=
  arts.foldl (fun g p => g.addNode p.1 (nodeData p.2)) g

/-- Inner loop of the reference-edge pass: for one article `(k, a)`, add a
`references` edge to every referenced id that is loaded (`if ref in
self.articles`).  The membership guard consults the full articles mapping. -/
def add_article_ref_edges (arts : Articles) (k : String) (refs : List String)
    (g : Graph) : Graph :=
  refs.foldl (fun g r => if (lookupKey arts r).isSome then g.addRefEdge k r else g) g

/-- Second loop of `build_graph` over a list of entries (the articles mapping
itself), with the membership guard fixed to the full mapping `arts`. -/
def build_ref_edges_aux (arts : Articles) (entries : List (String × Article))
    (g : Graph) : Graph :=
  entries.foldl (fun g p => add_article_ref_edges arts p.1 p.2.references_to g) g

/-- Second loop of `CrossReferenceAnalyzer.build_graph`: reference edges. -/
def build_ref_edges (arts : Articles) (g : Graph) : Graph :=
  build_ref_edges_aux arts arts g

/-- One guarded curated edge of `_add_interpretation_edges`:
`if u in self.graph and v in self.graph: self.graph.add_edge(u, v,
relationship=rel, critical=True)`. -/
def interp_step (g : Graph) (u v rel : String) : Graph :=
  if g.hasNode u && g.hasNode v then g.addInterpEdge u v rel else g

/-- `CrossReferenceAnalyzer._add_interpretation_edges`: the four hand-curated
critical edges 103-enables-143, 143-modifies-58, 27-requires-16,
28-alternative-27, each added when both endpoints exist. -/
def add_interpretation_edges (g : Graph) : Graph :=
  interp_step (interp_step (interp_step (interp_step g "103" "143" "enables")
    "143" "58" "modifies") "27" "16" "requires") "28" "27" "alternative"

/-- `CrossReferenceAnalyzer.build_graph`, acting on the instance state
`self.graph` (`g`): nodes, then reference edges, then curated edges.  The
method never clears `self.graph`, so a second call runs on the graph the
first call built. -/
def build_graph (arts : Articles) (g : Graph) : Graph :=
  add_interpretation_edges (build_ref_edges arts (build_nodes arts g))

/-! ## Conflict detection (CrossReferenceAnalyzer.detect_conflicts) -/

/-- Conflict dictionary emitted by `detect_conflicts`. -/
structure CRConflict where
  type : String
  articles : List String
  description : String
  severity : String
  critical : Bool
deriving DecidableEq

/-- `CrossReferenceAnalyzer.detect_conflicts`: the 103(2)-vs-143 conflict when
article 103 carries the `prohibition` constraint and 143 the `modification`
key term, then the 6-month-vs-4-year `timeline_inconsistency` whenever both
143 and 28 are loaded. -/
def detect_conflicts (arts : Articles) : List CRConflict :=
  (match lookupKey arts "103", lookupKey arts "143" with
   | some a103, some a143 =>
     if "prohibition" ∈ a103.constraints ∧ "modification" ∈ a143.key_terms then
       [⟨"prohibition_vs_modification", ["103", "143"],
         "Άρθρο 103(2) απαγορεύει τροποποίηση εξέτασης, αλλά Κανονισμός 143 τροποποιεί προθεσμίες",
         "high", true⟩]
     else []
   | _, _ => []) ++
  (if (lookupKey arts "143").isSome ∧ (lookupKey arts "28").isSome then
     [⟨"timeline_inconsistency", ["143", "28"],
       "Κανονισμός 143: 6 μήνες vs Άρθρο 28: 4 έτη", "medium", true⟩]
   else [])

/-- Analyzer state set up by `CrossReferenceAnalyzer.__init__`: the articles,
an empty digraph and an empty chain list (`verbose` is presentation-only). -/
structure AnalyzerState where
  articles : Articles
  graph : Graph
  chains : List (String × List String)
deriving DecidableEq

/-- `CrossReferenceAnalyzer.__init__(articles, verbose)`: stores the articles
and initializes an empty `nx.DiGraph`.  The constructor accepts no curated
interpretation-edge list (those edges are hardcoded in
`_add_interpretation_edges`) and its body contains no validation and no
failure path; this totality is made explicit by returning into
`Except String`. -/
def analyzer_init (arts : Articles) : Except String AnalyzerState :=
  .ok ⟨arts, Graph.empty, []⟩

/-! ## Logic validation (logic_validator.py)

`LogicValidator.__init__` also receives the reference graph, but none of the
four checks of `validate_interpretation` reads `self.graph` (only the
separate `validate_article_chain` helper does), so the battery is a function
of the articles mapping alone. -/

/-- Check dictionary produced by the LogicValidator checks.  Only the third
check carries an `ambiguity_level` key; its absence elsewhere is modelled by
`none`. -/
structure Check where
  name : String
  description : String
  points_possible : Int
  points_awarded : Int
  supports_interpretation : Bool
  evidence : List String
  analysis : String
  ambiguity_level : Option String := none
deriving DecidableEq

/-- `LogicValidator._check_prohibition_exists` (max 8): first critical phrase
of article 103 containing both the prohibition phrase and the examination
term; 8 points and `supports` if found, 3-point fallback otherwise, 0 when
article 103 is absent. -/
def check_prohibition_exists (arts : Articles) : Check :=
  let base : Check :=
    { name := "article_103_prohibition"
      description := "Άρθρο 103(2): Απαγόρευση τροποποίησης διατάξεων εξέτασης"
      points_possible := 8, points_awarded := 0
      supports_interpretation := false, evidence := [], analysis := "" }
  match lookupKey arts "103" with
  | none => { base with analysis := "Άρθρο 103 δεν βρέθηκε" }
  | some a103 =>
    match a103.critical_phrases.find?
        (fun p => strContains p "δεν επιτρέπει την τροποποίηση" && strContains p "εξέταση") with
    | some phrase =>
      { base with
        points_awarded := 8
        supports_interpretation := true
        evidence := ["Κείμενο: \"" ++ phrase ++ "\""]
        analysis :=
          "Το Άρθρο 103(2) απαγορεύει ρητά την τροποποίηση διατάξεων που αφορούν " ++
          "την εξέταση του χρεώστη. Αυτό αποτελεί ισχυρή υποστήριξη ότι η διαδικασία " ++
          "εξέτασης δεν μπορεί να αλλοιωθεί σε συνοπτική διαχείριση." }
    | none =>
      { base with points_awarded := 3, analysis := "Η απαγόρευση υπάρχει αλλά είναι ασαφής" }

/-- `LogicValidator._check_regulation_143_modifications` (max 7): additive
points for the 6-month phrase (+3), the single-dividend phrase (+2) and a
`references_to` entry for 58 (+2); `supports` iff at least 5 points. -/
def check_regulation_143_modifications (arts : Articles) : Check :=
  let base : Check :=
    { name := "regulation_143_modifications"
      description := "Κανονισμός 143: Τροποποίηση προθεσμίας σε 6 μήνες"
      points_possible := 7, points_awarded := 0
      supports_interpretation := false, evidence := [], analysis := "" }
  match lookupKey arts "143" with
  | none => { base with analysis := "Κανονισμός 143 δεν βρέθηκε" }
  | some a143 =>
    let six := strContains a143.text "έξι μήνες"
    let single := strContains a143.text "ένα μόνο μέρισμα"
    let mod58 := a143.references_to.contains "58"
    let points : Int :=
      (if six then 3 else 0) + (if single then 2 else 0) + (if mod58 then 2 else 0)
    { base with
      points_awarded := points
      supports_interpretation := decide (5 ≤ points)
      evidence :=
        (if six then ["Παράταση προθεσμίας σε 6 μήνες (Κανονισμός 143(i))"] else []) ++
        (if single then ["Διανομή σε ένα μόνο μέρισμα (Κανονισμός 143(ii))"] else []) ++
        (if mod58 then ["Αναφέρεται στο Άρθρο 58(2)"] else [])
      analysis :=
        "Ο Κανονισμός 143 επιβεβαιώνεται ότι:  " ++
        (if six then "(1) παρατείνει την προθεσμία σε 6 μήνες, " else "") ++
        (if single then "(2) προβλέπει ένα μόνο μέρισμα, " else "") ++
        (if mod58 then "(3) τροποποιεί το Άρθρο 58(2)." else "") }

/-- Hardcoded supporting-argument list of `_check_modification_equivalence`. -/
def supporting_logic : List String :=
  ["Άρθρο 27 απαιτεί ολοκλήρωση εξέτασης πριν την αποκατάσταση",
   "Κανονισμός 143 ορίζει 6μηνη προθεσμία για μέρισμα",
   "Ένα μόνο μέρισμα σημαίνει ταχεία ολοκλήρωση",
   "Αν η εξέταση δεν μπορεί να τροποποιηθεί, πρέπει να ολοκληρωθεί εντός 6 μηνών"]

/-- Hardcoded contradicting-argument list of `_check_modification_equivalence`. -/
def contradicting_logic : List String :=
  ["Άρθρο 103(2) αναφέρεται σε \x27διατάξεις εξέτασης\x27 (examination provisions)",
   "Κανονισμός 143 αναφέρεται σε \x27προθεσμία μερίσματος\x27 (dividend deadline)",
   "Το μέρισμα είναι οικονομική διαδικασία, όχι διαδικασία εξέτασης",
   "Άρθρο 28 δίνει 4ετή προθεσμία, όχι 6μηνη"]

/-- `LogicValidator._check_modification_equivalence` (max 10): a fixed,
author-asserted judgment call.  The method body reads nothing from `self`:
it always awards 4/10, never supports the interpretation, attaches the two
hardcoded argument lists as evidence and is marked with
`ambiguity_level='high'`. -/
def check_modification_equivalence : Check :=
  { name := "modification_equivalence"
    description := "Τροποποίηση χρόνου μερίσματος = Τροποποίηση εξέτασης;"
    points_possible := 10
    points_awarded := 4
    supports_interpretation := false
    evidence := supporting_logic ++ contradicting_logic
    analysis :=
      "ΚΡΙΣΙΜΗ ΑΣΑΦΕΙΑ: Υπάρχει νομική διάκριση μεταξύ:\n" ++
      "  (α) \x27διατάξεων που αφορούν την εξέταση\x27 (Άρθρο 103(2))\n" ++
      "  (β) \x27προθεσμίας διανομής μερίσματος\x27 (Κανονισμός 143(i))\n\n" ++
      "Η ερμηνεία προϋποθέτει ότι η τροποποίηση της προθεσμίας μερίσματος " ++
      "αποτελεί έμμεση τροποποίηση της διαδικασίας εξέτασης.  Αυτό ΔΥΝΑΤΟΝ " ++
      "να είναι αληθές αλλά ΔΕΝ είναι ρητά καθορισμένο στο νομοθετικό κείμενο.\n\n" ++
      "Το Άρθρο 28 προβλέπει προθεσμία 4 ετών για αποκατάσταση, όχι 6 μηνών, " ++
      "γεγονός που υποδηλώνει ότι οι δύο χρονοδιαγράμματα μπορεί να είναι ανεξάρτητα."
    ambiguity_level := some "high" }

/-- `LogicValidator._check_single_dividend_implication` (max 5): 2 points of
weak, never-supporting credit when the single-dividend phrase is present in
article 143. -/
def check_single_dividend_implication (arts : Articles) : Check :=
  let base : Check :=
    { name := "single_dividend_implication"
      description := "Ένα μόνο μέρισμα → Υποχρέωση αποκατάστασης;"
      points_possible := 5, points_awarded := 0
      supports_interpretation := false, evidence := [], analysis := "" }
  match lookupKey arts "143" with
  | none => base
  | some a143 =>
    if strContains a143.text "ένα μόνο μέρισμα" then
      { base with
        points_awarded := 2
        supports_interpretation := false
        evidence := ["Κανονισμός 143(ii): Διανομή σε ένα μόνο μέρισμα κατά την ρευστοποίηση"]
        analysis :=
          "Η διανομή σε ένα μόνο μέρισμα υποδηλώνει ταχεία ολοκλήρωση της " ++
          "ρευστοποίησης. Ωστόσο, αυτό ΔΕΝ δημιουργεί αυτόματα υποχρέωση " ++
          "αποκατάστασης του χρεώστη.  Τα Άρθρα 27-28 διέπουν την αποκατάσταση " ++
          "και δεν αναφέρουν ρητή σύνδεση με το χρονοδιάγραμμα μερίσματος." }
    else
      { base with analysis := "Δεν βρέθηκε αναφορά σε ένα μόνο μέρισμα" }

/-- Result dictionary of `validate_interpretation`. -/
structure LogicResults where
  score : Int
  max_score : Int
  checks : List Check
  summary : String
  supporting_factors : List String
  contradicting_factors : List String
deriving DecidableEq

/-- Numbered factor lines of `_generate_summary`
(`f"  {i}. {factor}\n"` for `i` counting from 1). -/
def numbered_lines (l : List String) : String :=
  String.join (l.enum.map (fun p => "  " ++ toString (p.1 + 1) ++ ". " ++ p.2 ++ "\n"))

/-- `LogicValidator._generate_summary`.  The Python code rates by the float
percentage `score / 30 * 100` against 70 and 50; for integral scores this is
exact, and it is modelled by the equivalent integer comparisons
`100 * score ≥ 70 * 30` and `100 * score ≥ 50 * 30` (the thresholds 21 and
15 are exactly representable, so float rounding cannot flip either test). -/
def generate_summary (score : Int) (sup contra : List String) : String :=
  let rating :=
    if 100 * score ≥ 70 * 30 then "ΙΣΧΥΡΗ"
    else if 100 * score ≥ 50 * 30 then "ΜΕΤΡΙΑ"
    else "ΑΔΥΝΑΜΗ"
  "Λογική Συνοχή: " ++ rating ++ " (" ++ toString score ++ "/30)\n\n" ++
  "ΥΠΟΣΤΗΡΙΚΤΙΚΑ ΣΤΟΙΧΕΙΑ:\n" ++ numbered_lines sup ++
  "\nΑΝΤΙΦΑΤΙΚΑ ΣΤΟΙΧΕΙΑ:\n" ++ numbered_lines contra

/-- `LogicValidator.validate_interpretation`: runs the four checks in order,
sums their awarded points, and buckets each check description into the
supporting or contradicting factors by its `supports_interpretation` flag. -/
def validate_interpretation (arts : Articles) : LogicResults :=
  let checks :=
    [check_prohibition_exists arts, check_regulation_143_modifications arts,
     check_modification_equivalence, check_single_dividend_implication arts]
  let score := (checks.map (·.points_awarded)).sum
  let sup := (checks.filter (·.supports_interpretation)).map (·.description)
  let contra := (checks.filter (fun c => !c.supports_interpretation)).map (·.description)
  { score := score
    max_score := 30
    checks := checks
    summary := generate_summary score sup contra
    supporting_factors := sup
    contradicting_factors := contra }

/-! ## Timeline analysis (timeline_analyzer.py) -/

/-- The `Deadline` dataclass. -/
structure Deadline where
  article : String
  description : String
  duration : String
  duration_days : Int
  trigger_event : String
  mandatory : Bool
  can_extend : Bool
  extension_conditions : Option String := none
deriving DecidableEq

/-- The 58(2) deadline record appended by `_extract_deadlines`. -/
def deadline_58_2 : Deadline :=
  ⟨"58(2)", "Πρώτο μέρισμα", "4 μήνες", 120,
    "Πέρας πρώτης συνέλευσης πιστωτών", true, true,
    some "Επαρκής λόγος προς εποπτική επιτροπή"⟩

/-- The 143(i) deadline record appended by `_extract_deadlines`
(`mandatory=False`, `can_extend=False`). -/
def deadline_143_i : Deadline :=
  ⟨"143(i)", "Πρώτο μέρισμα (συνοπτική διαχείριση)", "6 μήνες", 180,
    "Πέρας πρώτης συνέλευσης πιστωτών", false, false,
    some "Κατά την κρίση Επίσημου Παραλήπτη"⟩

/-- The article-28 deadline record appended by `_extract_deadlines`. -/
def deadline_28 : Deadline :=
  ⟨"28", "Αίτηση αποκατάστασης από Επίσημο Παραλήπτη", "4 έτη", 1460,
    "Συμπλήρωση δημόσιας εξέτασης", true, false, none⟩

/-- Deadlines appended by one call of `TimelineAnalyzer._extract_deadlines`:
58(2) on the 4-month phrase, 143(i) on the 6-month phrase, 28 on either
4-year phrase, in this order. -/
def extracted_deadlines (arts : Articles) : List Deadline :=
  (match lookupKey arts "58" with
   | some a58 =>
     if strContains a58.text "τέσσερις μήνες" then [deadline_58_2] else []
   | none => []) ++
  (match lookupKey arts "143" with
   | some a143 =>
     if strContains a143.text "έξι μήνες" then [deadline_143_i] else []
   | none => []) ++
  (match lookupKey arts "28" with
   | some a28 =>
     if strContains a28.text "τέσσερα χρόνια" || strContains a28.text "τέσσερις ετών" then
       [deadline_28]
     else []
   | none => [])

/-- `TimelineAnalyzer._extract_deadlines` appends to the instance state
`self.deadlines` without clearing it first. -/
def extract_deadlines (arts : Articles) (state : List Deadline) : List Deadline :=
  state ++ extracted_deadlines arts

/-- Conflict dictionary emitted by `_check_timeline_consistency`
(keys `type`, `severity`, `articles`, `description`, `analysis`). -/
structure TimelineConflict where
  type : String
  severity : String
  articles : List String
  description : String
  analysis : String
deriving DecidableEq

/-- The `timeline_mismatch` conflict, built from the two found deadlines. -/
def timeline_mismatch_conflict (d6 d4 : Deadline) : TimelineConflict :=
  ⟨"timeline_mismatch", "high", ["143(i)", "28"],
   "Κανονισμός 143: " ++ d6.duration ++ " για μέρισμα vs " ++
   "Άρθρο 28: " ++ d4.duration ++ " για αποκατάσταση",
   "Η ερμηνεία προϋποθέτει ότι η 6μηνη προθεσμία μερίσματος " ++
   "δημιουργεί υποχρέωση αποκατάστασης, αλλά το Άρθρο 28 δίνει " ++
   "4 έτη στον Επίσημο Παραλήπτη. Αυτό υποδηλώνει ότι τα δύο " ++
   "χρονοδιαγράμματα μπορεί να είναι ανεξάρτητα."⟩

/-- The `implicit_connection` conflict (a fixed record). -/
def implicit_connection_conflict : TimelineConflict :=
  ⟨"implicit_connection", "medium", ["143(i)", "27"],
   "Δεν υπάρχει ρητή σύνδεση μεταξύ της 6μηνης προθεσμίας " ++
   "μερίσματος και της υποχρέωσης αποκατάστασης",
   "Η ερμηνεία βασίζεται σε σιωπηρή λογική:  6 μήνες → ένα μέρισμα → " ++
   "ολοκλήρωση → αποκατάσταση. Αυτή η αλυσίδα δεν είναι νομικά " ++
   "καθορισμένη."⟩

/-- `TimelineAnalyzer._score_deadline_clarity` (0-5). -/
def score_deadline_clarity (ds : List Deadline) : Int :=
  let articles_with_deadlines := ds.map (·.article)
  min ((if "58(2)" ∈ articles_with_deadlines then 2 else 0) +
       (if "143(i)" ∈ articles_with_deadlines then 2 else 0) +
       (if "28" ∈ articles_with_deadlines then 1 else 0)) 5

/-- `TimelineAnalyzer._check_timeline_consistency`: starts from 8, deducts 5
when both the 143(i) and 28 deadlines exist (emitting the `timeline_mismatch`
conflict) and 2 more when the 143(i) deadline exists at all (emitting the
`implicit_connection` conflict); floored at 0. -/
def check_timeline_consistency (ds : List Deadline) : Int × List TimelineConflict :=
  let six := ds.find? (fun d => d.article == "143(i)")
  let four := ds.find? (fun d => d.article == "28")
  let step1 : Int × List TimelineConflict :=
    match six, four with
    | some d6, some d4 => (8 - 5, [timeline_mismatch_conflict d6 d4])
    | _, _ => (8, [])
  let step2 : Int × List TimelineConflict :=
    match six with
    | some _ => (step1.1 - 2, step1.2 ++ [implicit_connection_conflict])
    | none => step1
  (max step2.1 0, step2.2)

/-- `TimelineAnalyzer._score_implication_strength` (out of 7): +3 only if the
found 143(i) deadline is mandatory (+0 otherwise), +2 for the
single-dividend phrase, +1 for the examination-completion phrase in article
27, -1 when article 28 is loaded; floored at 0; 0 when no 143(i) deadline was
found. -/
def score_implication_strength (arts : Articles) (ds : List Deadline) : Int :=
  match ds.find? (fun d => d.article == "143(i)") with
  | none => 0
  | some six =>
    let s : Int :=
      (if six.mandatory then 3 else 0) +
      (if (match lookupKey arts "143" with
           | some a143 => strContains a143.text "ένα μόνο μέρισμα"
           | none => false) then 2 else 0) +
      (if (match lookupKey arts "27" with
           | some a27 => strContains a27.text "ολοκληρωθεί η δημόσια εξέταση"
           | none => false) then 1 else 0) -
      (if (lookupKey arts "28").isSome then 1 else 0)
    max s 0

/-- An event of `_build_timeline_chart`. -/
structure ChartEvent where
  day : Int
  event : String
  article : String
  type : String
deriving DecidableEq

/-- The chart of `_build_timeline_chart` (a constant; critical-path entries
carry only `day` and `event`). -/
structure TimelineChart where
  events : List ChartEvent
  critical_path : List (Int × String)
deriving DecidableEq

def build_timeline_chart : TimelineChart :=
  ⟨[⟨0, "Κήρυξη σε πτώχευση", "103", "start"⟩,
    ⟨30, "Πρώτη συνέλευση πιστωτών", "58", "trigger"⟩,
    ⟨150, "Προθεσμία πρώτου μερίσματος (κανονική)", "58(2)", "deadline"⟩,
    ⟨210, "Προθεσμία πρώτου μερίσματος (συνοπτική)", "143(i)", "deadline_critical"⟩,
    ⟨1490, "Προθεσμία αίτησης αποκατάστασης", "28", "deadline"⟩],
   [(0, "Κήρυξη πτώχευσης"), (30, "Συνέλευση πιστωτών"),
    (210, "Διανομή μερίσματος"),
    (210, "ΥΠΟΤΙΘΕΜΕΝΗ αποκατάσταση (σύμφωνα με ερμηνεία)")]⟩

/-- The fixed string of `_generate_critical_finding`. -/
def generate_critical_finding : String :=
  "ΚΡΙΣΙΜΟ ΕΥΡΗΜΑ ΧΡΟΝΟΔΙΑΓΡΑΜΜΑΤΟΣ:\n\n" ++
  "Υπάρχει ασυμφωνία μεταξύ δύο χρονικών προθεσμιών:\n\n" ++
  "1. ΚΑΝΟΝΙΣΜΟΣ 143(i): 6 μήνες για διανομή πρώτου μερίσματος\n" ++
  "   • Διακριτική ευχέρεια Επίσημου Παραλήπτη\n" ++
  "   • Αφορά ρευστοποίηση περιουσίας και διανομή\n" ++
  "   • Συνδυάζεται με \x27ένα μόνο μέρισμα\x27\n\n" ++
  "2. ΑΡΘΡΟ 28: 4 έτη για αίτηση αποκατάστασης\n" ++
  "   • Υποχρεωτική προθεσμία για Επίσημο Παραλήπτη\n" ++
  "   • Αφορά αποκατάσταση πτωχεύσαντα\n" ++
  "   • Μετράται από συμπλήρωση δημόσιας εξέτασης\n\n" ++
  "Η ερμηνεία υποστηρίζει ότι η 6μηνη προθεσμία δημιουργεί υποχρέωση\n" ++
  "άμεσης αποκατάστασης, αλλά το Άρθρο 28 δίνει 4ετή προθεσμία.\n\n" ++
  "ΕΡΩΤΗΜΑ: Τροποποιεί ο Κανονισμός 143 σιωπηρά το Άρθρο 28, ή είναι\n" ++
  "τα δύο χρονοδιαγράμματα ανεξάρτητα (μέρισμα vs αποκατάσταση);"

/-- The `score_breakdown` dictionary of `analyze_deadlines`. -/
structure TScoreBreakdown where
  deadline_clarity : Int
  consistency : Int
  implication_strength : Int
deriving DecidableEq

/-- Result dictionary of `analyze_deadlines`.  `deadlines` holds the entries
of `self.deadlines` (the dictionary conversion `_deadline_to_dict` is a
field-for-field copy and is modelled by the `Deadline` record itself). -/
structure TimelineResults where
  score : Int
  max_score : Int
  deadlines : List Deadline
  conflicts : List TimelineConflict
  timeline_chart : TimelineChart
  critical_finding : String
  score_breakdown : TScoreBreakdown
deriving DecidableEq

/-- `TimelineAnalyzer.analyze_deadlines`, acting on the instance state
`self.deadlines` (`state`, empty on a fresh instance): extracts deadlines
(appending to the state), computes the three sub-scores and sums them.
Returns the new state together with the result dictionary. -/
def analyze_deadlines (arts : Articles) (state : List Deadline) :
    List Deadline × TimelineResults :=
  let ds := extract_deadlines arts state
  let clarity := score_deadline_clarity ds
  let cons := check_timeline_consistency ds
  let implication := score_implication_strength arts ds
  ⟨ds,
   { score := clarity + cons.1 + implication
     max_score := 20
     deadlines := ds
     conflicts := cons.2
     timeline_chart := build_timeline_chart
     critical_finding := generate_critical_finding
     score_breakdown := ⟨clarity, cons.1, implication⟩ }⟩

/-! ## Score aggregation (fact_checker.py) -/

/-- An ambiguity record from the reasoning collaborator.  Modelled from the
spec: `reasoning_engine.py` is imported by the pipeline but is not part of
the core sources; per the spec it supplies a list of ambiguity records, each
carrying an `importance` tag, which `FactChecker` reads via
`amb.get('importance')` (absent keys read as `None`, hence the `Option`). -/
structure Ambiguity where
  importance : Option String
deriving DecidableEq

/-- Reasoning-collaborator output as consumed by `FactChecker`: only the
`ambiguities` list is read by the scorer. -/
structure ReasoningResults where
  ambiguities : List Ambiguity
deriving DecidableEq

/-- `FactChecker._score_text_support` (0-40): the four additive textual
factors (15 for the 103(2) prohibition, 6+6 for the two 143 phrases, 8 for
the article-27 examination requirement, 5 for a textual "58" in article 143
when both 58 and 143 are loaded), capped at 40. -/
def score_text_support (arts : Articles) : Int :=
  let f1 : Int :=
    match lookupKey arts "103" with
    | some a103 =>
      if strContains a103.text "δεν επιτρέπει την τροποποίηση" &&
         strContains a103.text "εξέταση" then 15 else 0
    | none => 0
  let f2 : Int :=
    match lookupKey arts "143" with
    | some a143 =>
      (if strContains a143.text "έξι μήνες" then 6 else 0) +
      (if strContains a143.text "ένα μόνο μέρισμα" then 6 else 0)
    | none => 0
  let f3 : Int :=
    match lookupKey arts "27" with
    | some a27 =>
      if strContains a27.text "ολοκληρωθεί η δημόσια εξέταση" then 8 else 0
    | none => 0
  let f4 : Int :=
    if (lookupKey arts "58").isSome then
      match lookupKey arts "143" with
      | some a143 => if strContains a143.text "58" then 5 else 0
      | none => 0
    else 0
  min (f1 + f2 + f3 + f4) 40

/-- `FactChecker._score_precedent`: the fixed neutral stand-in constant. -/
def score_precedent : Int := 5

/-- `FactChecker._determine_category`: five-bucket step function of the
total. -/
def determine_category (total : Int) : String :=
  if total ≥ 80 then "Ισχυρά Υποστηριζόμενη / Strongly Supported"
  else if total ≥ 65 then "Μετρίως Υποστηριζόμενη / Moderately Supported"
  else if total ≥ 50 then "Μερικώς Υποστηριζόμενη / Partially Supported"
  else if total ≥ 35 then "Αδύναμα Υποστηριζόμενη / Weakly Supported"
  else "Μη Υποστηριζόμενη / Not Supported"

/-- Count of reasoning ambiguities with `importance == 'critical'`
(`FactChecker._determine_confidence`). -/
def critical_ambiguities (rr : ReasoningResults) : Int :=
  ((rr.ambiguities.filter (fun a => a.importance == some "critical")).length : Int)

/-- `FactChecker._determine_confidence`: any critical ambiguity caps
confidence at moderate (total ≥ 70) or low (total < 70); otherwise the label
follows the total alone (≥70 high, ≥50 moderate, else low). -/
def determine_confidence (total : Int) (rr : ReasoningResults) : String :=
  if critical_ambiguities rr > 0 then
    if total ≥ 70 then "Μέτρια Εμπιστοσύνη / Moderate Confidence"
    else "Χαμηλή Εμπιστοσύνη / Low Confidence"
  else
    if total ≥ 70 then "Υψηλή Εμπιστοσύνη / High Confidence"
    else if total ≥ 50 then "Μέτρια Εμπιστοσύνη / Moderate Confidence"
    else "Χαμηλή Εμπιστοσύνη / Low Confidence"

/-- Score dictionary of `FactChecker.calculate_score`.  The purely
presentational fields (`breakdown` with its float percentages,
`interpretation`, `recommendation`) render the numeric fields for the report
and are not modelled. -/
structure Score where
  total : Int
  max_total : Int
  text_support : Int
  logic_score : Int
  timeline_score : Int
  precedent : Int
  category : String
  confidence : String
deriving DecidableEq

/-- `FactChecker.calculate_score`: text support, the two collaborator scores
(read via `.get('score', 0)` from the result dictionaries), the precedent
constant, their sum as the total, and the derived category and confidence
labels. -/
def calculate_score (arts : Articles) (logic : LogicResults)
    (timeline : TimelineResults) (reasoning : ReasoningResults) : Score :=
  let text := score_text_support arts
  let l := logic.score
  let t := timeline.score
  let p := score_precedent
  let total := text + l + t + p
  { total := total
    max_total := 100
    text_support := text
    logic_score := l
    timeline_score := t
    precedent := p
    category := determine_category total
    confidence := determine_confidence total reasoning }

/-! ## Graph-construction lemmas

Lemmas characterizing `build_graph` pass by pass, used for the idempotence
and simple-digraph properties. -/

/-- Effect on an edge-attribute dictionary of re-adding a `references` edge:
rewrite `relationship`, keep `critical`, default to a fresh attribute set. -/
def refUpd : Option EdgeData → EdgeData
  | some e => { e with relationship := "references" }
  | none => ⟨"references", false⟩

theorem refUpd_idem (o : Option EdgeData) : refUpd (some (refUpd o)) = refUpd o := by
  rcases o with _ | e <;> rfl

theorem nodes_addRefEdge (g : Graph) (u v : String) :
    (g.addRefEdge u v).nodes = g.nodes := rfl

theorem nodes_addInterpEdge (g : Graph) (u v rel : String) :
    (g.addInterpEdge u v rel).nodes = g.nodes := rfl

theorem edges_addNode (g : Graph) (k : String) (d : NodeData) :
    (g.addNode k d).edges = g.edges := rfl

theorem lookup_addRefEdge (g : Graph) (u v : String) (p : String × String) :
    lookupKey (g.addRefEdge u v).edges p =
      if p = (u, v) then some (refUpd (lookupKey g.edges p)) else lookupKey g.edges p := by
  by_cases h : p = (u, v)
  · subst h
    rw [if_pos rfl]
    show lookupKey (upsert (u, v) _ _ g.edges) (u, v) = _
    rw [lookupKey_upsert_self]
    rcases lookupKey g.edges (u, v) with _ | e <;> rfl
  · rw [if_neg h]
    exact lookupKey_upsert_ne g.edges (u, v) p _ _ h

theorem lookup_addInterpEdge (g : Graph) (u v rel : String) (p : String × String) :
    lookupKey (g.addInterpEdge u v rel).edges p =
      if p = (u, v) then some ⟨rel, true⟩ else lookupKey g.edges p := by
  by_cases h : p = (u, v)
  · subst h
    rw [if_pos rfl]
    show lookupKey (upsert (u, v) _ _ g.edges) (u, v) = _
    rw [lookupKey_upsert_self]
    rcases lookupKey g.edges (u, v) with _ | e <;> rfl
  · rw [if_neg h]
    exact lookupKey_upsert_ne g.edges (u, v) p _ _ h

theorem keys_edges_addRefEdge_mem (g : Graph) (u v : String)
    (h : (u, v) ∈ keysOf g.edges) :
    keysOf (g.addRefEdge u v).edges = keysOf g.edges :=
  keysOf_upsert_mem g.edges (u, v) _ _ h

theorem keys_edges_addInterpEdge_mem (g : Graph) (u v rel : String)
    (h : (u, v) ∈ keysOf g.edges) :
    keysOf (g.addInterpEdge u v rel).edges = keysOf g.edges :=
  keysOf_upsert_mem g.edges (u, v) _ _ h

theorem mem_keys_edges_addRefEdge (g : Graph) (u v : String) (p : String × String)
    (h : p ∈ keysOf g.edges) : p ∈ keysOf (g.addRefEdge u v).edges := by
  by_cases hm : (u, v) ∈ keysOf g.edges
  · rw [keys_edges_addRefEdge_mem g u v hm]
    exact h
  · show p ∈ keysOf (upsert (u, v) _ _ g.edges)
    rw [keysOf_upsert_not_mem g.edges (u, v) _ _ hm]
    exact List.mem_append_left _ h

theorem mem_keys_edges_addInterpEdge (g : Graph) (u v rel : String) (p : String × String)
    (h : p ∈ keysOf g.edges) : p ∈ keysOf (g.addInterpEdge u v rel).edges := by
  by_cases hm : (u, v) ∈ keysOf g.edges
  · rw [keys_edges_addInterpEdge_mem g u v rel hm]
    exact h
  · show p ∈ keysOf (upsert (u, v) _ _ g.edges)
    rw [keysOf_upsert_not_mem g.edges (u, v) _ _ hm]
    exact List.mem_append_left _ h

/-! ### The node pass -/

theorem edges_build_nodes (arts : Articles) (g : Graph) :
    (build_nodes arts g).edges = g.edges := by
  induction arts generalizing g with
  | nil => rfl
  | cons p t ih =>
    show (build_nodes t (g.addNode p.1 (nodeData p.2))).edges = g.edges
    rw [ih, edges_addNode]

theorem lookup_build_nodes_absent (arts : Articles) (g : Graph) (k : String)
    (h : lookupKey arts k = none) :
    lookupKey (build_nodes arts g).nodes k = lookupKey g.nodes k := by
  induction arts generalizing g with
  | nil => rfl
  | cons p t ih =>
    obtain ⟨k0, a0⟩ := p
    have hk0 : k0 ≠ k := by
      intro he
      rw [lookupKey, if_pos he] at h
      exact Option.noConfusion h
    have ht : lookupKey t k = none := by
      rw [lookupKey, if_neg hk0] at h
      exact h
    show lookupKey (build_nodes t (Graph.addNode _ k0 _)).nodes k = _
    rw [ih _ ht]
    exact lookupKey_upsert_ne g.nodes k0 k _ _ (fun he => hk0 he.symm)

theorem lookup_build_nodes_present (arts : Articles) (g : Graph) (k : String)
    (a : Article) (hnd : (keysOf arts).Nodup) (h : lookupKey arts k = some a) :
    lookupKey (build_nodes arts g).nodes k = some (nodeData a) := by
  induction arts generalizing g with
  | nil => exact Option.noConfusion h
  | cons p t ih =>
    obtain ⟨k0, a0⟩ := p
    simp only [keysOf, List.map_cons, List.nodup_cons] at hnd
    by_cases hk0 : k0 = k
    · subst hk0
      rw [lookupKey, if_pos rfl] at h
      obtain rfl : a0 = a := Option.some.inj h
      have htn : lookupKey t k0 = none :=
        (lookupKey_eq_none t k0).mpr hnd.1
      show lookupKey (build_nodes t (Graph.addNode _ k0 _)).nodes k0 = _
      rw [lookup_build_nodes_absent t _ k0 htn]
      show lookupKey (upsert k0 _ _ g.nodes) k0 = _
      rw [lookupKey_upsert_self]
      rcases lookupKey g.nodes k0 with _ | d <;> rfl
    · rw [lookupKey, if_neg hk0] at h
      exact ih (g.addNode k0 (nodeData a0)) hnd.2 h

theorem mem_keys_build_nodes (arts : Articles) (g : Graph) (k : String) :
    k ∈ keysOf (build_nodes arts g).nodes ↔ k ∈ keysOf arts ∨ k ∈ keysOf g.nodes := by
  induction arts generalizing g with
  | nil => simp [build_nodes, keysOf]
  | cons p t ih =>
    obtain ⟨k0, a0⟩ := p
    show k ∈ keysOf (build_nodes t (Graph.addNode _ k0 _)).nodes ↔ _
    rw [ih]
    rw [show (Graph.addNode g k0 (nodeData a0)).nodes = upsert k0 (fun _ => nodeData a0)
      (nodeData a0) g.nodes from rfl]
    rw [mem_keysOf_upsert, keysOf_cons, List.mem_cons]
    tauto

theorem keys_build_nodes_stable (arts : Articles) (g : Graph)
    (h : ∀ k ∈ keysOf arts, k ∈ keysOf g.nodes) :
    keysOf (build_nodes arts g).nodes = keysOf g.nodes := by
  induction arts generalizing g with
  | nil => rfl
  | cons p t ih =>
    obtain ⟨k0, a0⟩ := p
    have hk0 : k0 ∈ keysOf g.nodes := h k0 (by rw [keysOf_cons]; exact List.mem_cons_self _ _)
    have hstep : (Graph.addNode g k0 (nodeData a0)).nodes =
      upsert k0 (fun _ => nodeData a0) (nodeData a0) g.nodes := rfl
    show keysOf (build_nodes t (Graph.addNode _ k0 _)).nodes = _
    rw [ih _ (fun k hk => by
      rw [hstep, keysOf_upsert_mem g.nodes k0 _ _ hk0]
      exact h k (by rw [keysOf_cons]; exact List.mem_cons_of_mem _ hk))]
    rw [hstep, keysOf_upsert_mem g.nodes k0 _ _ hk0]

theorem keys_build_nodes_nodup (arts : Articles) (g : Graph)
    (h : (keysOf g.nodes).Nodup) : (keysOf (build_nodes arts g).nodes).Nodup := by
  induction arts generalizing g with
  | nil => exact h
  | cons p t ih =>
    exact ih _ (keysOf_upsert_nodup g.nodes p.1 _ _ h)

theorem hasNode_build_nodes (arts : Articles) (g : Graph) (k : String) :
    (build_nodes arts g).hasNode k = true ↔ k ∈ keysOf arts ∨ g.hasNode k = true := by
  unfold Graph.hasNode
  rw [lookupKey_isSome, lookupKey_isSome, mem_keys_build_nodes]

/-! ### The reference-edge pass -/

theorem nodes_add_article_ref_edges (arts : Articles) (k : String) (refs : List String)
    (g : Graph) : (add_article_ref_edges arts k refs g).nodes = g.nodes := by
  induction refs generalizing g with
  | nil => rfl
  | cons r rest ih =>
    show (add_article_ref_edges arts k rest
      (if (lookupKey arts r).isSome then g.addRefEdge k r else g)).nodes = g.nodes
    rw [ih]
    by_cases h : (lookupKey arts r).isSome = true <;> simp [h, nodes_addRefEdge]

theorem nodes_build_ref_edges_aux (arts : Articles) (entries : List (String × Article))
    (g : Graph) : (build_ref_edges_aux arts entries g).nodes = g.nodes := by
  induction entries generalizing g with
  | nil => rfl
  | cons q rest ih =>
    show (build_ref_edges_aux arts rest (add_article_ref_edges arts q.1 q.2.references_to g)).nodes
      = g.nodes
    rw [ih, nodes_add_article_ref_edges]

theorem lookup_add_article_ref_edges (arts : Articles) (k : String) (refs : List String)
    (g : Graph) (pu pv : String) :
    lookupKey (add_article_ref_edges arts k refs g).edges (pu, pv) =
      if pu = k ∧ pv ∈ refs ∧ (lookupKey arts pv).isSome = true
      then some (refUpd (lookupKey g.edges (pu, pv)))
      else lookupKey g.edges (pu, pv) := by
  induction refs generalizing g with
  | nil => simp [add_article_ref_edges]
  | cons r rest ih =>
    show lookupKey (add_article_ref_edges arts k rest
      (if (lookupKey arts r).isSome then g.addRefEdge k r else g)).edges (pu, pv) = _
    rw [ih]
    have hg1 : lookupKey (if (lookupKey arts r).isSome then g.addRefEdge k r else g).edges
        (pu, pv) =
        if pu = k ∧ pv = r ∧ (lookupKey arts pv).isSome = true
        then some (refUpd (lookupKey g.edges (pu, pv)))
        else lookupKey g.edges (pu, pv) := by
      by_cases hguard : (lookupKey arts r).isSome = true
      · simp only [hguard, if_true, lookup_addRefEdge]
        by_cases hpu : pu = k
        · by_cases hpv : pv = r
          · subst hpu
            subst hpv
            simp [hguard]
          · have hne : ((pu, pv) : String × String) ≠ (k, r) := by simp [hpv]
            simp [hne, hpv]
        · have hne : ((pu, pv) : String × String) ≠ (k, r) := by simp [hpu]
          simp [hne, hpu]
      · simp only [hguard, if_false]
        by_cases hpv : pv = r
        · subst hpv
          simp [hguard]
        · simp [hpv]
    rw [hg1]
    by_cases hpv : pv = r
    · subst hpv
      by_cases hpu : pu = k <;>
        by_cases hsv : (lookupKey arts pv).isSome = true <;>
        by_cases hrest : pv ∈ rest <;>
        simp [hpu, hsv, hrest, refUpd_idem, List.mem_cons]
    · by_cases hpu : pu = k <;>
        by_cases hsv : (lookupKey arts pv).isSome = true <;>
        by_cases hrest : pv ∈ rest <;>
        simp [hpu, hsv, hpv, hrest, refUpd_idem, List.mem_cons]

/-- Specification vocabulary for the lemmas below: some entry of `entries`
has key `u` and lists `v` among its outgoing references, with `v` loaded in
the full mapping — exactly the condition under which the reference pass adds
(or rewrites) the edge `(u, v)`. -/
def is_ref_pair_in (arts : Articles) : List (String × Article) → String → String → Bool
  | [], _, _ => false
  | q :: rest, u, v =>
    (decide (u = q.1) && decide (v ∈ q.2.references_to) && (lookupKey arts v).isSome) ||
    is_ref_pair_in arts rest u v

theorem lookup_build_ref_edges_aux (arts : Articles) (entries : List (String × Article))
    (g : Graph) (pu pv : String) :
    lookupKey (build_ref_edges_aux arts entries g).edges (pu, pv) =
      if is_ref_pair_in arts entries pu pv = true
      then some (refUpd (lookupKey g.edges (pu, pv)))
      else lookupKey g.edges (pu, pv) := by
  induction entries generalizing g with
  | nil => simp [build_ref_edges_aux, is_ref_pair_in]
  | cons q rest ih =>
    show lookupKey (build_ref_edges_aux arts rest
      (add_article_ref_edges arts q.1 q.2.references_to g)).edges (pu, pv) = _
    rw [ih, lookup_add_article_ref_edges]
    by_cases h1 : pu = q.1 <;> by_cases h2 : pv ∈ q.2.references_to <;>
      by_cases h3 : (lookupKey arts pv).isSome = true <;>
      by_cases hrest : is_ref_pair_in arts rest pu pv = true <;>
      simp [is_ref_pair_in, h1, h2, h3, hrest, refUpd_idem]

/-! ### The curated-edge pass -/

theorem nodes_interp_step (g : Graph) (u v rel : String) :
    (interp_step g u v rel).nodes = g.nodes := by
  unfold interp_step
  split <;> rfl

theorem nodes_add_interpretation_edges (g : Graph) :
    (add_interpretation_edges g).nodes = g.nodes := by
  unfold add_interpretation_edges
  rw [nodes_interp_step, nodes_interp_step, nodes_interp_step, nodes_interp_step]

theorem hasNode_interp_step (g : Graph) (u v rel k : String) :
    (interp_step g u v rel).hasNode k = g.hasNode k := by
  unfold Graph.hasNode
  rw [nodes_interp_step]

theorem lookup_interp_step (g : Graph) (u v rel pu pv : String) :
    lookupKey (interp_step g u v rel).edges (pu, pv) =
      if (pu, pv) = (u, v) ∧ (g.hasNode u && g.hasNode v) = true then some ⟨rel, true⟩
      else lookupKey g.edges (pu, pv) := by
  unfold interp_step
  by_cases hc : (g.hasNode u && g.hasNode v) = true
  · simp only [hc, if_true, lookup_addInterpEdge]
    by_cases hp : ((pu, pv) : String × String) = (u, v) <;> simp [hp, hc]
  · simp [hc]

theorem lookup_add_interpretation_edges (g : Graph) (pu pv : String) :
    lookupKey (add_interpretation_edges g).edges (pu, pv) =
      if (pu, pv) = ("28", "27") ∧ (g.hasNode "28" && g.hasNode "27") = true
      then some ⟨"alternative", true⟩
      else if (pu, pv) = ("27", "16") ∧ (g.hasNode "27" && g.hasNode "16") = true
      then some ⟨"requires", true⟩
      else if (pu, pv) = ("143", "58") ∧ (g.hasNode "143" && g.hasNode "58") = true
      then some ⟨"modifies", true⟩
      else if (pu, pv) = ("103", "143") ∧ (g.hasNode "103" && g.hasNode "143") = true
      then some ⟨"enables", true⟩
      else lookupKey g.edges (pu, pv) := by
  unfold add_interpretation_edges
  simp only [lookup_interp_step, hasNode_interp_step]

/-! ### Full characterization of a built graph's edge lookups -/

theorem lookup_build_graph (arts : Articles) (g : Graph) (pu pv : String) :
    lookupKey (build_graph arts g).edges (pu, pv) =
      (if (pu, pv) = ("28", "27") ∧
          ((build_nodes arts g).hasNode "28" && (build_nodes arts g).hasNode "27") = true
       then some ⟨"alternative", true⟩
       else if (pu, pv) = ("27", "16") ∧
          ((build_nodes arts g).hasNode "27" && (build_nodes arts g).hasNode "16") = true
       then some ⟨"requires", true⟩
       else if (pu, pv) = ("143", "58") ∧
          ((build_nodes arts g).hasNode "143" && (build_nodes arts g).hasNode "58") = true
       then some ⟨"modifies", true⟩
       else if (pu, pv) = ("103", "143") ∧
          ((build_nodes arts g).hasNode "103" && (build_nodes arts g).hasNode "143") = true
       then some ⟨"enables", true⟩
       else if is_ref_pair_in arts arts pu pv = true
       then some (refUpd (lookupKey g.edges (pu, pv)))
       else lookupKey g.edges (pu, pv)) := by
  unfold build_graph
  rw [lookup_add_interpretation_edges]
  have hn : ∀ x, (build_ref_edges arts (build_nodes arts g)).hasNode x =
      (build_nodes arts g).hasNode x := fun x => by
    unfold Graph.hasNode
    rw [show (build_ref_edges arts (build_nodes arts g)).nodes = (build_nodes arts g).nodes
      from nodes_build_ref_edges_aux arts arts (build_nodes arts g)]
  simp only [hn]
  rw [show build_ref_edges arts (build_nodes arts g) =
    build_ref_edges_aux arts arts (build_nodes arts g) from rfl]
  rw [lookup_build_ref_edges_aux, edges_build_nodes]

/-! ### Key-list stability and uniqueness -/

theorem keys_add_article_ref_edges_stable (arts : Articles) (k : String)
    (refs : List String) (g : Graph)
    (h : ∀ r ∈ refs, (lookupKey arts r).isSome = true → (k, r) ∈ keysOf g.edges) :
    keysOf (add_article_ref_edges arts k refs g).edges = keysOf g.edges := by
  induction refs generalizing g with
  | nil => rfl
  | cons r rest ih =>
    have hg1 : keysOf (if (lookupKey arts r).isSome then g.addRefEdge k r else g).edges =
        keysOf g.edges := by
      by_cases hguard : (lookupKey arts r).isSome = true
      · simp only [hguard, if_true]
        exact keys_edges_addRefEdge_mem g k r (h r (List.mem_cons_self _ _) hguard)
      · simp [hguard]
    show keysOf (add_article_ref_edges arts k rest
      (if (lookupKey arts r).isSome then g.addRefEdge k r else g)).edges = keysOf g.edges
    rw [ih _ (fun r' hr' hsv => by
      rw [hg1]
      exact h r' (List.mem_cons_of_mem _ hr') hsv)]
    exact hg1

theorem keys_build_ref_edges_aux_stable (arts : Articles)
    (entries : List (String × Article)) (g : Graph)
    (h : ∀ q ∈ entries, ∀ r ∈ q.2.references_to,
      (lookupKey arts r).isSome = true → (q.1, r) ∈ keysOf g.edges) :
    keysOf (build_ref_edges_aux arts entries g).edges = keysOf g.edges := by
  induction entries generalizing g with
  | nil => rfl
  | cons q rest ih =>
    have hg1 : keysOf (add_article_ref_edges arts q.1 q.2.references_to g).edges =
        keysOf g.edges :=
      keys_add_article_ref_edges_stable arts q.1 q.2.references_to g
        (fun r hr hsv => h q (List.mem_cons_self _ _) r hr hsv)
    show keysOf (build_ref_edges_aux arts rest
      (add_article_ref_edges arts q.1 q.2.references_to g)).edges = keysOf g.edges
    rw [ih _ (fun q' hq' r hr hsv => by
      rw [hg1]
      exact h q' (List.mem_cons_of_mem _ hq') r hr hsv)]
    exact hg1

theorem keys_interp_step_stable (g : Graph) (u v rel : String)
    (h : (g.hasNode u && g.hasNode v) = true → (u, v) ∈ keysOf g.edges) :
    keysOf (interp_step g u v rel).edges = keysOf g.edges := by
  unfold interp_step
  by_cases hc : (g.hasNode u && g.hasNode v) = true
  · simp only [hc, if_true]
    exact keys_edges_addInterpEdge_mem g u v rel (h hc)
  · simp [hc]

theorem keys_add_interpretation_edges_stable (g : Graph)
    (h1 : (g.hasNode "103" && g.hasNode "143") = true → ("103", "143") ∈ keysOf g.edges)
    (h2 : (g.hasNode "143" && g.hasNode "58") = true → ("143", "58") ∈ keysOf g.edges)
    (h3 : (g.hasNode "27" && g.hasNode "16") = true → ("27", "16") ∈ keysOf g.edges)
    (h4 : (g.hasNode "28" && g.hasNode "27") = true → ("28", "27") ∈ keysOf g.edges) :
    keysOf (add_interpretation_edges g).edges = keysOf g.edges := by
  unfold add_interpretation_edges
  have s1 := keys_interp_step_stable g "103" "143" "enables" h1
  have s2 := keys_interp_step_stable (interp_step g "103" "143" "enables") "143" "58" "modifies"
    (by rw [hasNode_interp_step, hasNode_interp_step, s1]; exact h2)
  have s3 := keys_interp_step_stable
    (interp_step (interp_step g "103" "143" "enables") "143" "58" "modifies") "27" "16" "requires"
    (by rw [hasNode_interp_step, hasNode_interp_step, hasNode_interp_step,
      hasNode_interp_step, s2, s1]; exact h3)
  have s4 := keys_interp_step_stable
    (interp_step (interp_step (interp_step g "103" "143" "enables") "143" "58" "modifies")
      "27" "16" "requires") "28" "27" "alternative"
    (by
      rw [hasNode_interp_step, hasNode_interp_step, hasNode_interp_step, hasNode_interp_step,
        hasNode_interp_step, hasNode_interp_step, s3, s2, s1]
      exact h4)
  rw [s4, s3, s2, s1]

theorem nodup_add_article_ref_edges (arts : Articles) (k : String) (refs : List String)
    (g : Graph) (h : (keysOf g.edges).Nodup) :
    (keysOf (add_article_ref_edges arts k refs g).edges).Nodup := by
  induction refs generalizing g with
  | nil => exact h
  | cons r rest ih =>
    refine ih _ ?_
    by_cases hguard : (lookupKey arts r).isSome = true
    · simp only [hguard, if_true]
      exact keysOf_upsert_nodup g.edges (k, r) _ _ h
    · simpa [hguard] using h

theorem nodup_build_ref_edges_aux (arts : Articles) (entries : List (String × Article))
    (g : Graph) (h : (keysOf g.edges).Nodup) :
    (keysOf (build_ref_edges_aux arts entries g).edges).Nodup := by
  induction entries generalizing g with
  | nil => exact h
  | cons q rest ih =>
    exact ih _ (nodup_add_article_ref_edges arts q.1 q.2.references_to g h)

theorem nodup_interp_step (g : Graph) (u v rel : String) (h : (keysOf g.edges).Nodup) :
    (keysOf (interp_step g u v rel).edges).Nodup := by
  unfold interp_step
  by_cases hc : (g.hasNode u && g.hasNode v) = true
  · simp only [hc, if_true]
    exact keysOf_upsert_nodup g.edges (u, v) _ _ h
  · simpa [hc] using h

theorem nodup_build_graph_edges (arts : Articles) (g : Graph)
    (h : (keysOf g.edges).Nodup) : (keysOf (build_graph arts g).edges).Nodup := by
  unfold build_graph add_interpretation_edges
  refine nodup_interp_step _ _ _ _ (nodup_interp_step _ _ _ _ (nodup_interp_step _ _ _ _
    (nodup_interp_step _ _ _ _ ?_)))
  refine nodup_build_ref_edges_aux arts arts _ ?_
  rw [edges_build_nodes]
  exact h

theorem nodup_build_graph_nodes (arts : Articles) (g : Graph)
    (h : (keysOf g.nodes).Nodup) : (keysOf (build_graph arts g).nodes).Nodup := by
  unfold build_graph build_ref_edges
  rw [nodes_add_interpretation_edges, nodes_build_ref_edges_aux]
  exact keys_build_nodes_nodup arts g h

theorem nodes_build_graph (arts : Articles) (g : Graph) :
    (build_graph arts g).nodes = (build_nodes arts g).nodes := by
  unfold build_graph build_ref_edges
  rw [nodes_add_interpretation_edges, nodes_build_ref_edges_aux]

/-! ### Presence of pairs in a built graph -/

theorem bool_eq_of_iff {x y : Bool} (h : x = true ↔ y = true) : x = y :=
  Bool.eq_iff_iff.mpr h

theorem is_ref_pair_in_intro (arts : Articles) (entries : List (String × Article))
    (q : String × Article) (hq : q ∈ entries) (r : String)
    (hr : r ∈ q.2.references_to) (hsv : (lookupKey arts r).isSome = true) :
    is_ref_pair_in arts entries q.1 r = true := by
  induction entries with
  | nil => cases hq
  | cons q0 rest ih =>
    rcases List.mem_cons.mp hq with h | h
    · subst h
      simp [is_ref_pair_in, hr, hsv]
    · simp [is_ref_pair_in, ih h]

theorem present_ref_pair (arts : Articles) (g : Graph) (pu pv : String)
    (h : is_ref_pair_in arts arts pu pv = true) :
    (pu, pv) ∈ keysOf (build_graph arts g).edges := by
  rw [← lookupKey_isSome, lookup_build_graph]
  split_ifs with h1 h2 h3 h4 <;> rfl

theorem present_interp_pair (arts : Articles) (g : Graph) (u v : String)
    (huv : (u, v) = ("103", "143") ∨ (u, v) = ("143", "58") ∨
      (u, v) = ("27", "16") ∨ (u, v) = ("28", "27"))
    (hc : ((build_nodes arts g).hasNode u && (build_nodes arts g).hasNode v) = true) :
    (u, v) ∈ keysOf (build_graph arts g).edges := by
  rw [← lookupKey_isSome, lookup_build_graph]
  rcases huv with h | h | h | h <;>
    rw [show u = (((u, v) : String × String)).1 from rfl,
      show v = (((u, v) : String × String)).2 from rfl] at hc ⊢ <;>
    rw [h] at hc ⊢ <;>
    simp only [] <;>
    split_ifs with h1 h2 h3 h4 h5 <;>
    first
      | rfl
      | (exfalso; simp_all)

theorem lookup_empty_edges (p : String × String) :
    lookupKey Graph.empty.edges p = none := rfl

/-- Central idempotence lemma: calling `build_graph` a second time, on the
graph the first call built, reproduces that graph exactly — node list and
edge list, attributes included. -/
theorem build_graph_twice (arts : Articles) (hnd : (keysOf arts).Nodup) :
    build_graph arts (build_graph arts Graph.empty) = build_graph arts Graph.empty := by
  set G := build_graph arts Graph.empty with hG
  have hGnodes : G.nodes = (build_nodes arts Graph.empty).nodes := by
    rw [hG, nodes_build_graph]
  have hGnodes_nodup : (keysOf G.nodes).Nodup := by
    rw [hG]
    exact nodup_build_graph_nodes arts Graph.empty List.nodup_nil
  have hGedges_nodup : (keysOf G.edges).Nodup := by
    rw [hG]
    exact nodup_build_graph_edges arts Graph.empty List.nodup_nil
  have hmemG : ∀ k, k ∈ keysOf G.nodes ↔ k ∈ keysOf arts := by
    intro k
    rw [hGnodes, mem_keys_build_nodes]
    simp [Graph.empty, keysOf]
  have hGhas : ∀ x, G.hasNode x = true ↔ x ∈ keysOf arts := by
    intro x
    unfold Graph.hasNode
    rw [lookupKey_isSome]
    exact hmemG x
  have hhas : ∀ x, (build_nodes arts G).hasNode x =
      (build_nodes arts Graph.empty).hasNode x := by
    intro x
    apply bool_eq_of_iff
    rw [hasNode_build_nodes, hasNode_build_nodes]
    constructor
    · rintro (h | h)
      · exact Or.inl h
      · exact Or.inl ((hGhas x).mp h)
    · rintro (h | h)
      · exact Or.inl h
      · exact absurd h (by simp [Graph.hasNode, Graph.empty, lookupKey])
  have hnodes_eq : (build_graph arts G).nodes = G.nodes := by
    rw [nodes_build_graph]
    apply assoc_ext
    · exact keys_build_nodes_nodup arts G hGnodes_nodup
    · exact keys_build_nodes_stable arts G (fun k hk => (hmemG k).mpr hk)
    · intro k
      rcases hka : lookupKey arts k with _ | a
      · rw [lookup_build_nodes_absent arts G k hka]
      · rw [lookup_build_nodes_present arts G k a hnd hka, hGnodes,
          lookup_build_nodes_present arts Graph.empty k a hnd hka]
  have hrefhas : ∀ x, (build_ref_edges arts (build_nodes arts G)).hasNode x =
      (build_nodes arts G).hasNode x := by
    intro x
    unfold Graph.hasNode
    rw [show (build_ref_edges arts (build_nodes arts G)).nodes =
      (build_nodes arts G).nodes from nodes_build_ref_edges_aux arts arts _]
  have hrefkeys : keysOf (build_ref_edges arts (build_nodes arts G)).edges =
      keysOf G.edges := by
    rw [show build_ref_edges arts (build_nodes arts G) =
      build_ref_edges_aux arts arts (build_nodes arts G) from rfl]
    rw [keys_build_ref_edges_aux_stable arts arts (build_nodes arts G)
      (fun q hq r hr hsv => by
        rw [edges_build_nodes, hG]
        exact present_ref_pair arts Graph.empty q.1 r
          (is_ref_pair_in_intro arts arts q hq r hr hsv))]
    rw [edges_build_nodes]
  have hinterp_mem : ∀ u v : String,
      ((u, v) = ("103", "143") ∨ (u, v) = ("143", "58") ∨
        (u, v) = ("27", "16") ∨ (u, v) = ("28", "27")) →
      ((build_ref_edges arts (build_nodes arts G)).hasNode u &&
        (build_ref_edges arts (build_nodes arts G)).hasNode v) = true →
      (u, v) ∈ keysOf (build_ref_edges arts (build_nodes arts G)).edges := by
    intro u v huv hc
    rw [hrefhas, hrefhas, hhas, hhas] at hc
    rw [hrefkeys, hG]
    exact present_interp_pair arts Graph.empty u v huv hc
  have hkeysB : keysOf (build_graph arts G).edges = keysOf G.edges := by
    rw [show build_graph arts G =
      add_interpretation_edges (build_ref_edges arts (build_nodes arts G)) from rfl]
    rw [keys_add_interpretation_edges_stable _
      (hinterp_mem "103" "143" (Or.inl rfl))
      (hinterp_mem "143" "58" (Or.inr (Or.inl rfl)))
      (hinterp_mem "27" "16" (Or.inr (Or.inr (Or.inl rfl))))
      (hinterp_mem "28" "27" (Or.inr (Or.inr (Or.inr rfl))))]
    exact hrefkeys
  have hedges_eq : (build_graph arts G).edges = G.edges := by
    apply assoc_ext
    · exact nodup_build_graph_edges arts G hGedges_nodup
    · exact hkeysB
    · intro p
      obtain ⟨pu, pv⟩ := p
      rw [lookup_build_graph arts G pu pv]
      simp only [hhas]
      rw [hG]
      rw [lookup_build_graph arts Graph.empty pu pv]
      simp only [lookup_empty_edges]
      split_ifs <;> simp [refUpd_idem]
  exact Graph.ext' _ _ hnodes_eq hedges_eq

/-! ## Score-bound lemmas -/

theorem check_prohibition_exists_bounds (arts : Articles) :
    0 ≤ (check_prohibition_exists arts).points_awarded ∧
      (check_prohibition_exists arts).points_awarded ≤ 8 := by
  unfold check_prohibition_exists
  cases h103 : lookupKey arts "103" with
  | none => simp [h103]
  | some a103 =>
    cases hf : a103.critical_phrases.find? (fun p =>
        strContains p "δεν επιτρέπει την τροποποίηση" && strContains p "εξέταση") with
    | none => simp [h103, hf]
    | some phrase => simp [h103, hf]

theorem check_regulation_143_modifications_bounds (arts : Articles) :
    0 ≤ (check_regulation_143_modifications arts).points_awarded ∧
      (check_regulation_143_modifications arts).points_awarded ≤ 7 := by
  unfold check_regulation_143_modifications
  cases h143 : lookupKey arts "143" with
  | none => simp [h143]
  | some a143 =>
    simp only [h143]
    split_ifs <;> simp

theorem check_single_dividend_implication_bounds (arts : Articles) :
    0 ≤ (check_single_dividend_implication arts).points_awarded ∧
      (check_single_dividend_implication arts).points_awarded ≤ 2 := by
  unfold check_single_dividend_implication
  cases h143 : lookupKey arts "143" with
  | none => simp [h143]
  | some a143 =>
    simp only [h143]
    split_ifs <;> simp

theorem validate_interpretation_score_bounds (arts : Articles) :
    0 ≤ (validate_interpretation arts).score ∧ (validate_interpretation arts).score ≤ 30 := by
  have h1 := check_prohibition_exists_bounds arts
  have h2 := check_regulation_143_modifications_bounds arts
  have h4 := check_single_dividend_implication_bounds arts
  have h3 : check_modification_equivalence.points_awarded = 4 := rfl
  simp only [validate_interpretation, List.map_cons, List.map_nil, List.sum_cons,
    List.sum_nil]
  omega

theorem score_text_support_bounds (arts : Articles) :
    0 ≤ score_text_support arts ∧ score_text_support arts ≤ 40 := by
  unfold score_text_support
  cases h103 : lookupKey arts "103" <;>
    cases h143 : lookupKey arts "143" <;>
    cases h27 : lookupKey arts "27" <;>
    cases h58 : (lookupKey arts "58").isSome <;>
    simp only [h103, h143, h27, h58] <;>
    split_ifs <;>
    constructor <;> omega

theorem score_deadline_clarity_bounds (ds : List Deadline) :
    0 ≤ score_deadline_clarity ds ∧ score_deadline_clarity ds ≤ 5 := by
  unfold score_deadline_clarity
  dsimp only
  split_ifs <;> constructor <;> omega

theorem check_timeline_consistency_bounds (ds : List Deadline) :
    0 ≤ (check_timeline_consistency ds).1 ∧ (check_timeline_consistency ds).1 ≤ 8 := by
  unfold check_timeline_consistency
  cases hsix : ds.find? (fun d => d.article == "143(i)") <;>
    cases hfour : ds.find? (fun d => d.article == "28") <;>
    simp only [hsix, hfour] <;> constructor <;> omega

theorem score_implication_strength_bounds (arts : Articles) (ds : List Deadline) :
    0 ≤ score_implication_strength arts ds ∧ score_implication_strength arts ds ≤ 6 := by
  unfold score_implication_strength
  cases hsix : ds.find? (fun d => d.article == "143(i)") with
  | none => simp
  | some six =>
    simp only [hsix]
    split_ifs <;> constructor <;> omega

theorem analyze_deadlines_score_bounds (arts : Articles) (state : List Deadline) :
    0 ≤ (analyze_deadlines arts state).2.score ∧ (analyze_deadlines arts state).2.score ≤ 20 := by
  have h1 := score_deadline_clarity_bounds (extract_deadlines arts state)
  have h2 := check_timeline_consistency_bounds (extract_deadlines arts state)
  have h3 := score_implication_strength_bounds arts (extract_deadlines arts state)
  simp only [analyze_deadlines]
  omega

/-! ## Extracted-deadline facts -/

theorem extracted_not_mandatory (arts : Articles) (d : Deadline)
    (hd : d ∈ extracted_deadlines arts) (ha : d.article = "143(i)") :
    d.mandatory = false := by
  unfold extracted_deadlines at hd
  rw [List.mem_append, List.mem_append] at hd
  rcases hd with (hd | hd) | hd
  · cases h58 : lookupKey arts "58" <;> rw [h58] at hd <;> dsimp only at hd
    · cases hd
    · split_ifs at hd
      · rw [List.mem_singleton] at hd
        subst hd
        exact absurd ha (by decide)
      · cases hd
  · cases h143 : lookupKey arts "143" <;> rw [h143] at hd <;> dsimp only at hd
    · cases hd
    · split_ifs at hd
      · rw [List.mem_singleton] at hd
        subst hd
        rfl
      · cases hd
  · cases h28 : lookupKey arts "28" <;> rw [h28] at hd <;> dsimp only at hd
    · cases hd
    · split_ifs at hd
      · rw [List.mem_singleton] at hd
        subst hd
        exact absurd ha (by decide)
      · cases hd

theorem score_implication_strength_le_three (arts : Articles) (ds : List Deadline)
    (h : ∀ d ∈ ds, d.article = "143(i)" → d.mandatory = false) :
    score_implication_strength arts ds ≤ 3 := by
  unfold score_implication_strength
  cases hsix : ds.find? (fun d => d.article == "143(i)") with
  | none => simp
  | some six =>
    have hmem := List.mem_of_find?_eq_some hsix
    have hp := List.find?_some hsix
    have ha : six.article = "143(i)" := by simpa using hp
    have hm : six.mandatory = false := h six hmem ha
    simp only [hsix]
    simp only [hm, Bool.false_eq_true, if_false]
    split_ifs <;> omega

/-! ## Recomputation facts for `analyze_deadlines` on an already-used instance -/

theorem find?_self_append {α : Type} (p : α → Bool) (l : List α) :
    (l ++ l).find? p = l.find? p := by
  rw [List.find?_append]
  cases h : l.find? p <;> simp

theorem score_deadline_clarity_self_append (l : List Deadline) :
    score_deadline_clarity (l ++ l) = score_deadline_clarity l := by
  unfold score_deadline_clarity
  dsimp only
  rw [List.map_append]
  simp [List.mem_append]

theorem check_timeline_consistency_self_append (l : List Deadline) :
    check_timeline_consistency (l ++ l) = check_timeline_consistency l := by
  unfold check_timeline_consistency
  rw [find?_self_append, find?_self_append]

theorem score_implication_strength_self_append (arts : Articles) (l : List Deadline) :
    score_implication_strength arts (l ++ l) = score_implication_strength arts l := by
  unfold score_implication_strength
  rw [find?_self_append]

/-! ## Pipeline wiring and concrete inputs -/

/-- End-to-end wiring of `bankruptcy_factcheck.run_factcheck`: fresh component
instances feed `FactChecker.calculate_score` with the logic battery's and the
timeline battery's result dictionaries (the reasoning collaborator's output
`rr` is external input). -/
def pipeline_score (arts : Articles) (rr : ReasoningResults) : Score :=
  calculate_score arts (validate_interpretation arts) (analyze_deadlines arts []).2 rr

/-- Article 143 holding only the 6-month phrase (scenario input). -/
def article_143_six : Article := ⟨"", "έξι μήνες", [], [], [], []⟩

/-- Article 28 holding only the 4-year phrase (scenario input). -/
def article_28_four : Article := ⟨"", "τέσσερα χρόνια", [], [], [], []⟩

/-- Scenario-B articles mapping: 143 with the 6-month deadline phrase, 28
with the 4-year deadline phrase. -/
def arts_B : Articles := [("143", article_143_six), ("28", article_28_four)]

/-- Article 58 holding only the 4-month phrase (one extractable deadline). -/
def article_58_four_months : Article := ⟨"", "τέσσερις μήνες", [], [], [], []⟩

/-- A mapping with a single article from which one deadline is extracted. -/
def arts_58_only : Articles := [("58", article_58_four_months)]

/-- Article 143 textually referencing article 58. -/
def article_143_ref58 : Article := ⟨"", "", [], [], ["58"], []⟩

/-- Article 58 with no content. -/
def article_58_plain : Article := ⟨"", "", [], [], [], []⟩

/-- Mapping in which 143 references 58 and both are loaded, so both the
`references` edge and the curated `modifies` edge 143→58 apply. -/
def arts_143_58 : Articles := [("143", article_143_ref58), ("58", article_58_plain)]

/-! ## Claims -/

/-- C1: for every articles mapping and reasoning result, with the logic and
timeline scores produced by `validate_interpretation` and
`analyze_deadlines` (fresh instances), `calculate_score` returns
`0 ≤ logic_score ≤ 30` (the logic battery's value), `0 ≤ timeline_score ≤ 20`
(the timeline battery's value), `0 ≤ text_support ≤ 40`, `precedent = 5`,
and a total equal to the sum of the four components with
`0 ≤ total ≤ 100`. -/
theorem C1_score_bounds (arts : Articles) (rr : ReasoningResults) :
    (pipeline_score arts rr).logic_score = (validate_interpretation arts).score ∧
    0 ≤ (pipeline_score arts rr).logic_score ∧ (pipeline_score arts rr).logic_score ≤ 30 ∧
    (pipeline_score arts rr).timeline_score = (analyze_deadlines arts []).2.score ∧
    0 ≤ (pipeline_score arts rr).timeline_score ∧
    (pipeline_score arts rr).timeline_score ≤ 20 ∧
    0 ≤ (pipeline_score arts rr).text_support ∧
    (pipeline_score arts rr).text_support ≤ 40 ∧
    (pipeline_score arts rr).precedent = 5 ∧
    (pipeline_score arts rr).total = (pipeline_score arts rr).text_support +
      (pipeline_score arts rr).logic_score + (pipeline_score arts rr).timeline_score +
      (pipeline_score arts rr).precedent ∧
    0 ≤ (pipeline_score arts rr).total ∧ (pipeline_score arts rr).total ≤ 100 := by
  have hl := validate_interpretation_score_bounds arts
  have ht := analyze_deadlines_score_bounds arts []
  have hx := score_text_support_bounds arts
  dsimp only [pipeline_score, calculate_score, score_precedent]
  omega

/-- C5: building the graph twice on the same analyzer instance leaves the
node list and the edge list of the graph unchanged relative to the first
build — no duplicate nodes or edges accumulate across calls. -/
theorem C5_idempotent_build (arts : Articles) (hnd : (keysOf arts).Nodup) :
    (build_graph arts (build_graph arts Graph.empty)).nodes =
      (build_graph arts Graph.empty).nodes ∧
    (build_graph arts (build_graph arts Graph.empty)).edges =
      (build_graph arts Graph.empty).edges :=
  ⟨congrArg Graph.nodes (build_graph_twice arts hnd),
   congrArg Graph.edges (build_graph_twice arts hnd)⟩

theorem C5_idempotent_build_witness :
    (keysOf arts_143_58).Nodup ∧
    (build_graph arts_143_58 (build_graph arts_143_58 Graph.empty)).nodes =
      (build_graph arts_143_58 Graph.empty).nodes ∧
    (build_graph arts_143_58 (build_graph arts_143_58 Graph.empty)).edges =
      (build_graph arts_143_58 Graph.empty).edges :=
  ⟨by decide, C5_idempotent_build arts_143_58 (by decide)⟩

/-- C6: the confidence label is moderate on any critical ambiguity with
total ≥ 70, low on any critical ambiguity with total < 70, and otherwise
follows the total alone (≥ 70 high, 50–69 moderate, else low); in particular
a total of 62 yields moderate confidence with zero critical ambiguities and
low confidence with at least one. -/
theorem C6_confidence (total : Int) (rr : ReasoningResults) :
    (0 < critical_ambiguities rr → 70 ≤ total →
      determine_confidence total rr = "Μέτρια Εμπιστοσύνη / Moderate Confidence") ∧
    (0 < critical_ambiguities rr → total < 70 →
      determine_confidence total rr = "Χαμηλή Εμπιστοσύνη / Low Confidence") ∧
    (critical_ambiguities rr = 0 → 70 ≤ total →
      determine_confidence total rr = "Υψηλή Εμπιστοσύνη / High Confidence") ∧
    (critical_ambiguities rr = 0 → 50 ≤ total → total < 70 →
      determine_confidence total rr = "Μέτρια Εμπιστοσύνη / Moderate Confidence") ∧
    (critical_ambiguities rr = 0 → total < 50 →
      determine_confidence total rr = "Χαμηλή Εμπιστοσύνη / Low Confidence") ∧
    (critical_ambiguities rr = 0 →
      determine_confidence 62 rr = "Μέτρια Εμπιστοσύνη / Moderate Confidence") ∧
    (0 < critical_ambiguities rr →
      determine_confidence 62 rr = "Χαμηλή Εμπιστοσύνη / Low Confidence") := by
  refine ⟨fun hc ht => ?_, fun hc ht => ?_, fun hc ht => ?_, fun hc h1 h2 => ?_,
    fun hc ht => ?_, fun hc => ?_, fun hc => ?_⟩ <;>
    unfold determine_confidence <;>
    split_ifs <;> first | rfl | omega

/-- C7: the category label is a five-bucket step function of the total, with
buckets exactly at ≥ 80, [65, 80), [50, 65), [35, 50) and < 35. -/
theorem C7_category_buckets (total : Int) :
    (determine_category total = "Ισχυρά Υποστηριζόμενη / Strongly Supported" ↔
      80 ≤ total) ∧
    (determine_category total = "Μετρίως Υποστηριζόμενη / Moderately Supported" ↔
      65 ≤ total ∧ total < 80) ∧
    (determine_category total = "Μερικώς Υποστηριζόμενη / Partially Supported" ↔
      50 ≤ total ∧ total < 65) ∧
    (determine_category total = "Αδύναμα Υποστηριζόμενη / Weakly Supported" ↔
      35 ≤ total ∧ total < 50) ∧
    (determine_category total = "Μη Υποστηριζόμενη / Not Supported" ↔ total < 35) := by
  unfold determine_category
  split_ifs with h1 h2 h3 h4 <;>
    refine ⟨⟨fun hLab => ?_, fun hTot => ?_⟩, ⟨fun hLab => ?_, fun hTot => ?_⟩,
      ⟨fun hLab => ?_, fun hTot => ?_⟩, ⟨fun hLab => ?_, fun hTot => ?_⟩,
      ⟨fun hLab => ?_, fun hTot => ?_⟩⟩ <;>
    first | rfl | omega | exact absurd hLab (by decide)

/-- C8: the modification-equivalence check is a fixed judgment call: its
record never depends on the articles or the graph (the embedded check is a
constant and is the third check the battery emits), with 4/10 points,
`supports_interpretation = false`, `ambiguity_level = 'high'`, and evidence
equal to the hardcoded supporting arguments followed by the hardcoded
contradicting arguments. -/
theorem C8_modification_equivalence (arts : Articles) :
    (validate_interpretation arts).checks[2]? = some check_modification_equivalence ∧
    check_modification_equivalence.points_awarded = 4 ∧
    check_modification_equivalence.points_possible = 10 ∧
    check_modification_equivalence.supports_interpretation = false ∧
    check_modification_equivalence.ambiguity_level = some "high" ∧
    check_modification_equivalence.evidence = supporting_logic ++ contradicting_logic :=
  ⟨rfl, rfl, rfl, rfl, rfl, rfl⟩

/-- C9: `CrossReferenceAnalyzer.__init__` accepts no curated edge list and
has no failure path: construction always succeeds, storing the articles and
an empty digraph — no configuration validation (and hence no descriptive
rejection of unknown relationship kinds) exists at construction time. -/
theorem C9_construction_total (arts : Articles) :
    analyzer_init arts = Except.ok ⟨arts, Graph.empty, []⟩ := rfl

/-- C10 (implicit): every deadline extracted for article 143(i) has
`mandatory = False`, so the +3 mandatory branch of the implication-strength
sub-score is unreachable on extracted deadlines; the sub-score is therefore
at most 3 and the timeline battery's total is at most 16, strictly below the
advertised maximum `max_score = 20`. -/
theorem C10_timeline_cap (arts : Articles) :
    (∀ d ∈ extracted_deadlines arts, d.article = "143(i)" → d.mandatory = false) ∧
    score_implication_strength arts (extracted_deadlines arts) ≤ 3 ∧
    (analyze_deadlines arts []).2.score ≤ 16 ∧
    (analyze_deadlines arts []).2.max_score = 20 := by
  have hman := fun d hd ha => extracted_not_mandatory arts d hd ha
  have himp : score_implication_strength arts (extracted_deadlines arts) ≤ 3 :=
    score_implication_strength_le_three arts (extracted_deadlines arts) hman
  refine ⟨hman, himp, ?_, rfl⟩
  have h1 := score_deadline_clarity_bounds (extract_deadlines arts [])
  have h2 := check_timeline_consistency_bounds (extract_deadlines arts [])
  have h3 : score_implication_strength arts (extract_deadlines arts []) ≤ 3 := himp
  simp only [analyze_deadlines]
  omega

theorem find?_extracted_143 (arts : Articles) (a143 : Article)
    (h143 : lookupKey arts "143" = some a143)
    (h6 : strContains a143.text "έξι μήνες" = true) :
    (extracted_deadlines arts).find? (fun d => d.article == "143(i)") =
      some deadline_143_i := by
  unfold extracted_deadlines
  rw [h143]
  simp only [h6, if_true]
  cases h58 : lookupKey arts "58" with
  | none =>
    cases h28 : lookupKey arts "28" <;>
      simp [List.find?_append, List.find?, deadline_143_i, deadline_28]
  | some a58 =>
    cases hs : strContains a58.text "τέσσερις μήνες" <;>
      cases h28 : lookupKey arts "28" <;>
      simp [hs, List.find?_append, List.find?, deadline_143_i, deadline_58_2, deadline_28]

theorem find?_extracted_28 (arts : Articles) (a28 : Article)
    (h28 : lookupKey arts "28" = some a28)
    (h4 : (strContains a28.text "τέσσερα χρόνια" ||
      strContains a28.text "τέσσερις ετών") = true) :
    (extracted_deadlines arts).find? (fun d => d.article == "28") = some deadline_28 := by
  unfold extracted_deadlines
  rw [h28]
  simp only [h4, if_true]
  cases h58 : lookupKey arts "58" with
  | none =>
    cases h143 : lookupKey arts "143" <;>
      simp [List.find?_append, List.find?, deadline_143_i, deadline_28]
  | some a58 =>
    cases hs : strContains a58.text "τέσσερις μήνες" <;>
      cases h143 : lookupKey arts "143" <;>
      simp [hs, List.find?_append, List.find?, deadline_143_i, deadline_58_2, deadline_28]

/-- C2: when article 143 is loaded with the 6-month phrase and article 28
with a 4-year phrase, the timeline battery emits exactly one conflict of
kind `timeline_mismatch`, at severity `high`, involving 143(i) and 28, and
its temporal-consistency sub-score is 8 − 5 − 2 = 1 (the 6-month deadline
also triggering the `implicit_connection` deduction); the cross-reference
conflict detector emits no `timeline_mismatch`-kind conflict. -/
theorem C2_scenario_B (arts : Articles) (a143 a28 : Article)
    (h143 : lookupKey arts "143" = some a143)
    (h6 : strContains a143.text "έξι μήνες" = true)
    (h28 : lookupKey arts "28" = some a28)
    (h4 : (strContains a28.text "τέσσερα χρόνια" ||
      strContains a28.text "τέσσερις ετών") = true) :
    (analyze_deadlines arts []).2.score_breakdown.consistency = 1 ∧
    ((analyze_deadlines arts []).2.conflicts.filter
      (fun c => c.type == "timeline_mismatch")).length = 1 ∧
    (∀ c ∈ (analyze_deadlines arts []).2.conflicts, c.type = "timeline_mismatch" →
      c.severity = "high" ∧ c.articles = ["143(i)", "28"]) ∧
    (detect_conflicts arts).filter (fun c => c.type == "timeline_mismatch") = [] := by
  have hcons : check_timeline_consistency (extracted_deadlines arts) =
      (1, [timeline_mismatch_conflict deadline_143_i deadline_28,
           implicit_connection_conflict]) := by
    unfold check_timeline_consistency
    rw [find?_extracted_143 arts a143 h143 h6, find?_extracted_28 arts a28 h28 h4]
    rfl
  have hds : extract_deadlines arts [] = extracted_deadlines arts := rfl
  have hbd : (analyze_deadlines arts []).2.score_breakdown.consistency =
      (check_timeline_consistency (extracted_deadlines arts)).1 := rfl
  have hcf : (analyze_deadlines arts []).2.conflicts =
      (check_timeline_consistency (extracted_deadlines arts)).2 := rfl
  refine ⟨?_, ?_, ?_, ?_⟩
  · rw [hbd, hcons]
  · rw [hcf, hcons]
    rfl
  · intro c hc
    rw [hcf, hcons] at hc
    rcases List.mem_cons.mp hc with h | h
    · subst h
      intro _
      exact ⟨rfl, rfl⟩
    · rcases List.mem_singleton.mp h with rfl
      intro habs
      exact absurd habs (by decide)
  · have hs143 : (lookupKey arts "143").isSome = true := by rw [h143]; rfl
    have hs28 : (lookupKey arts "28").isSome = true := by rw [h28]; rfl
    unfold detect_conflicts
    cases h103 : lookupKey arts "103" <;> rw [h143] <;>
      simp [hs143, hs28]
    rintro a - - rfl
    decide

theorem C2_scenario_B_witness :
    (analyze_deadlines arts_B []).2.score_breakdown.consistency = 1 ∧
    ((analyze_deadlines arts_B []).2.conflicts.filter
      (fun c => c.type == "timeline_mismatch")).length = 1 :=
  ⟨(C2_scenario_B arts_B article_143_six article_28_four rfl (by decide) rfl (by decide)).1,
   (C2_scenario_B arts_B article_143_six article_28_four rfl (by decide) rfl (by decide)).2.1⟩

/-- C3 is refuted on the code: `_extract_deadlines` appends to
`self.deadlines` without clearing it, so the second `analyze_deadlines` call
on the same instance returns a different (duplicated) deadlines list. -/
theorem C3_counterexample :
    ¬ ((analyze_deadlines arts_58_only (analyze_deadlines arts_58_only []).1).2.deadlines =
      (analyze_deadlines arts_58_only []).2.deadlines) := by
  decide

/-- C3 (amended): calling each pipeline operation twice on the same instance
yields identical results for `build_graph` (the rebuilt graph equals the
first build exactly), and for `detect_conflicts`, `validate_interpretation`
and `calculate_score` (stateless, so recomputation is definitional); a second
`analyze_deadlines` call returns the same score, score breakdown and
conflicts list, but its deadlines list accumulates: it equals the first
call's list concatenated with itself. -/
theorem C3_amended (arts : Articles) (hnd : (keysOf arts).Nodup) :
    build_graph arts (build_graph arts Graph.empty) = build_graph arts Graph.empty ∧
    (analyze_deadlines arts (analyze_deadlines arts []).1).2.score =
      (analyze_deadlines arts []).2.score ∧
    (analyze_deadlines arts (analyze_deadlines arts []).1).2.score_breakdown =
      (analyze_deadlines arts []).2.score_breakdown ∧
    (analyze_deadlines arts (analyze_deadlines arts []).1).2.conflicts =
      (analyze_deadlines arts []).2.conflicts ∧
    (analyze_deadlines arts (analyze_deadlines arts []).1).2.deadlines =
      (analyze_deadlines arts []).2.deadlines ++ (analyze_deadlines arts []).2.deadlines ∧
    detect_conflicts arts = detect_conflicts arts ∧
    validate_interpretation arts = validate_interpretation arts ∧
    ∀ rr : ReasoningResults, pipeline_score arts rr = pipeline_score arts rr := by
  have hclar := score_deadline_clarity_self_append (extracted_deadlines arts)
  have hcons := check_timeline_consistency_self_append (extracted_deadlines arts)
  have himp := score_implication_strength_self_append arts (extracted_deadlines arts)
  refine ⟨build_graph_twice arts hnd, ?_, ?_, ?_, rfl, rfl, rfl, fun _ => rfl⟩
  · show score_deadline_clarity (extracted_deadlines arts ++ extracted_deadlines arts) +
      (check_timeline_consistency (extracted_deadlines arts ++ extracted_deadlines arts)).1 +
      score_implication_strength arts (extracted_deadlines arts ++ extracted_deadlines arts) =
      score_deadline_clarity (extracted_deadlines arts) +
      (check_timeline_consistency (extracted_deadlines arts)).1 +
      score_implication_strength arts (extracted_deadlines arts)
    rw [hclar, hcons, himp]
  · show (⟨score_deadline_clarity (extracted_deadlines arts ++ extracted_deadlines arts),
      (check_timeline_consistency (extracted_deadlines arts ++ extracted_deadlines arts)).1,
      score_implication_strength arts (extracted_deadlines arts ++ extracted_deadlines arts)⟩ :
        TScoreBreakdown) =
      ⟨score_deadline_clarity (extracted_deadlines arts),
        (check_timeline_consistency (extracted_deadlines arts)).1,
        score_implication_strength arts (extracted_deadlines arts)⟩
    rw [hclar, hcons, himp]
  · show (check_timeline_consistency (extracted_deadlines arts ++ extracted_deadlines arts)).2 =
      (check_timeline_consistency (extracted_deadlines arts)).2
    rw [hcons]

theorem C3_amended_witness :
    (keysOf arts_58_only).Nodup ∧
    (analyze_deadlines arts_58_only (analyze_deadlines arts_58_only []).1).2.deadlines =
      (analyze_deadlines arts_58_only []).2.deadlines ++
      (analyze_deadlines arts_58_only []).2.deadlines :=
  ⟨by decide, (C3_amended arts_58_only (by decide)).2.2.2.2.1⟩

/-- C4 is refuted on the code: `nx.DiGraph` keeps at most one edge per
ordered pair, so in the very scenario the claim describes (143 references 58
and both endpoints exist) there is exactly one edge 143→58, of kind
`modifies` — the curated edge has overwritten the `references` kind, and no
two distinct co-existing edges on that pair exist. -/
theorem C4_counterexample :
    ((build_graph arts_143_58 Graph.empty).edges.filter
      (fun e => decide (e.1 = ("143", "58")))).map (fun e => e.2) =
      [⟨"modifies", true⟩] ∧
    ¬ (∃ e₁ ∈ (build_graph arts_143_58 Graph.empty).edges,
       ∃ e₂ ∈ (build_graph arts_143_58 Graph.empty).edges,
         e₁ ≠ e₂ ∧ e₁.1 = ("143", "58") ∧ e₂.1 = ("143", "58")) := by
  decide

/-- C4 (amended): for every articles mapping in which both 143 and 58 are
loaded, the built graph is a simple digraph (its edge keys are unique, so no
two distinct edges share an ordered pair), and the single edge 143→58 ends
with kind `modifies` and `critical = true`: the curated `modifies` assignment
overwrites any `references` edge added for the same pair. -/
theorem C4_single_edge (arts : Articles) (h143 : "143" ∈ keysOf arts)
    (h58 : "58" ∈ keysOf arts) :
    (keysOf (build_graph arts Graph.empty).edges).Nodup ∧
    lookupKey (build_graph arts Graph.empty).edges ("143", "58") =
      some ⟨"modifies", true⟩ := by
  refine ⟨nodup_build_graph_edges arts Graph.empty List.nodup_nil, ?_⟩
  rw [lookup_build_graph]
  have hc : ((build_nodes arts Graph.empty).hasNode "143" &&
      (build_nodes arts Graph.empty).hasNode "58") = true := by
    have hA := (hasNode_build_nodes arts Graph.empty "143").mpr (Or.inl h143)
    have hB := (hasNode_build_nodes arts Graph.empty "58").mpr (Or.inl h58)
    simp [hA, hB]
  rw [if_neg (fun hcon => absurd hcon.1 (by decide)),
    if_neg (fun hcon => absurd hcon.1 (by decide)),
    if_pos ⟨rfl, hc⟩]

theorem C4_single_edge_witness :
    "143" ∈ keysOf arts_143_58 ∧ "58" ∈ keysOf arts_143_58 ∧
    lookupKey (build_graph arts_143_58 Graph.empty).edges ("143", "58") =
      some ⟨"modifies", true⟩ :=
  ⟨by decide, by decide, (C4_single_edge arts_143_58 (by decide) (by decide)).2⟩

theorem C6_confidence_witness :
    critical_ambiguities ⟨[]⟩ = 0 ∧
    determine_confidence 62 ⟨[]⟩ = "Μέτρια Εμπιστοσύνη / Moderate Confidence" ∧
    0 < critical_ambiguities ⟨[⟨some "critical"⟩]⟩ ∧
    determine_confidence 62 ⟨[⟨some "critical"⟩]⟩ = "Χαμηλή Εμπιστοσύνη / Low Confidence" :=
  ⟨rfl, (C6_confidence 62 ⟨[]⟩).2.2.2.2.2.1 rfl, by decide,
   (C6_confidence 62 ⟨[⟨some "critical"⟩]⟩).2.2.2.2.2.2 (by decide)⟩

theorem C10_timeline_cap_witness :
    (analyze_deadlines arts_B []).2.score ≤ 16 ∧
    deadline_143_i.mandatory = false :=
  ⟨(C10_timeline_cap arts_B).2.2.1,
   (C10_timeline_cap arts_B).1 deadline_143_i (by decide) rfl⟩

end CaselawFactcheck
